import Mathlib

/-!
Shallow embedding of the order-processing core of `sanyangteo_solver`
(`src/order_processor/`): candidate classification (`candidate.py`),
fulfilment-status determination (`status.py`), the CP-SAT assignment model
(`solver.py`) and the infeasibility reconciliation step (`processor.py`).

Numeric values that the Python code carries as floats (prices, quantities,
thresholds) are modelled as rationals; Python's `int(...)` truncation and
`round(x, 2)` (round-half-even) are modelled explicitly.  Heterogeneous
detail dictionaries are modelled only to the depth the business logic
inspects them: the minimum-order-amount details (consumed by the
reconciliation step) are kept in full, other rejection-detail payloads are
dropped since no downstream decision reads them.
-/

namespace OrderProc

/-- `enums.MatchStatus`: closed enumeration of match states. -/
inductive MatchStatus where
  | ok
  | low_confidence
  | no_match
  | manual_override
deriving DecidableEq, Repr

/-- `enums.OrderStatus`: closed enumeration of order fulfilment states. -/
inductive OrderStatus where
  | fully_closed
  | partially_closed
  | cannot_close
deriving DecidableEq, Repr

/-- `config.ProcessorConfig.optimization_priority` (a two-value Literal). -/
inductive OptPriority where
  | suppliers_count
  | container_match
deriving DecidableEq, Repr

/-- `config.ProcessorConfig`: tunable thresholds, with the source defaults. -/
structure ProcessorConfig where
  sim_threshold_ok : ℚ := 42 / 100
  sim_threshold_low : ℚ := 30 / 100
  allow_insufficient : Bool := true
  insufficient_threshold : ℚ := 20 / 100
  price_margin : Option ℚ := none
  allow_alike_containers : Bool := false
  alike_tolerance : ℤ := 1
  solver_timeout : ℕ := 60
  optimization_priority : OptPriority := OptPriority.suppliers_count

/-- Python `int(q)`: truncation toward zero. -/
def truncToInt (q : ℚ) : ℤ :=
  if 0 ≤ q then ⌊q⌋ else ⌈q⌉

/-- Round-half-even of a rational to an integer (Python `round`'s tie rule). -/
def roundHalfEven (q : ℚ) : ℤ :=
  let f : ℤ := ⌊q⌋
  let frac : ℚ := q - f
  if frac < 1 / 2 then f
  else if 1 / 2 < frac then f + 1
  else if f % 2 = 0 then f else f + 1

/-- Python `round(q, 2)` on the exact rational value. -/
def round2 (q : ℚ) : ℚ :=
  (roundHalfEven (q * 100) : ℚ) / 100

/-- Supplier rule set (`suppliers[..].rules`), flattened: `constraints` and
`policies` sub-dicts are inlined, `discounts`/`extra` are not consumed by
the classification/solver stages and are omitted. -/
structure SupplierRules where
  min_line_qty : Option ℚ := none
  min_order_amount : Option ℚ := none
  blacklisted : Bool := false
  filters : List String := []
deriving DecidableEq, Repr

/-- One raw candidate offer from the input payload. -/
structure RawCandidate where
  supplier_id : ℕ
  price : Option ℚ := none
  availability_qty : Option ℚ := none
  pack_code : Option String := none
  pack_match_status : Option String := none
  policy_filters : List String := []
  supplier_rules : Option SupplierRules := none
deriving DecidableEq, Repr

/-- One raw order line (`items[..]` of the candidates payload). -/
structure RawItem where
  line_no : ℕ
  qty : ℕ
  match_status : MatchStatus
  match_score : Option ℚ := none
  candidates : List RawCandidate := []
deriving DecidableEq, Repr

/-- Raw candidates payload handed to `filter_and_classify_candidates`. -/
structure RawPayload where
  order_id : ℕ
  items : List RawItem
  suppliers : List (ℕ × SupplierRules)
deriving DecidableEq, Repr

/-- Minimum-order-amount risk details attached at classification time and
consumed by `_calculate_min_order_shortfalls`. -/
structure MoaDetails where
  supplier_id : ℕ
  required_amount : ℚ
  actual_amount : ℚ
  delta_amount : ℚ
  suggested_qty_increase : Option ℤ
deriving DecidableEq, Repr

/-- A candidate after classification (`candidate_info` in the source). -/
structure EnrichedCandidate where
  supplier_id : ℕ
  price : Option ℚ
  availability_qty : Option ℚ
  pack_code : Option String
  pack_match_status : Option String
  is_available : Bool
  sufficient_qty : Bool
  shortage_pct : Option ℚ
  line_total : Option ℚ
  min_order_amount_risk : Bool
  min_order_amount_details : Option MoaDetails
  eligible_for_solver : Bool
  rejected_reason : Option String
  rejection_reasons : List String
deriving DecidableEq, Repr

/-- An order line after classification (`enriched_item` in the source). -/
structure EnrichedItem where
  line_no : ℕ
  qty : ℕ
  match_status : MatchStatus
  match_score : Option ℚ
  candidates_raw_count : ℕ
  candidates : List EnrichedCandidate
  candidates_all : List EnrichedCandidate
  max_allowed_price : Option ℚ
  min_order_amount_risks : List (ℕ × MoaDetails)
  goes_to_solver : Bool
deriving DecidableEq, Repr

/-- Enriched payload produced by `filter_and_classify_candidates`. -/
structure EnrichedPayload where
  order_id : ℕ
  items : List EnrichedItem
  suppliers : List (ℕ × SupplierRules)
deriving DecidableEq, Repr

/-- `candidate.is_candidate_available`: availability check returning
`(is_available, shortage_pct)`; the returned shortage is the fraction
`(requested - available) / requested` multiplied by 100. -/
def is_candidate_available (cfg : ProcessorConfig) (qty_requested : ℕ)
    (qty_available : Option ℚ) : Bool × Option ℚ :=
  match qty_available with
  | none => (true, none)
  | some avail =>
    if (qty_requested : ℚ) ≤ avail then (true, none)
    else
      let shortage_pct : ℚ := ((qty_requested : ℚ) - avail) / (qty_requested : ℚ)
      if cfg.allow_insufficient ∧ shortage_pct ≤ cfg.insufficient_threshold then
        (true, some (shortage_pct * 100))
      else
        (false, some (shortage_pct * 100))

/-- Lookup of a supplier's rules in the payload's supplier map, with the
source's `or {}` default. -/
def lookupRules (suppliers : List (ℕ × SupplierRules)) (sid : ℕ) : SupplierRules :=
  match suppliers.find? (fun p => p.1 = sid) with
  | some p => p.2
  | none => {}

/-- Minimum of a price list (`min(price_values)`), `none` on empty input. -/
def minPrice : List ℚ → Option ℚ
  | [] => none
  | p :: ps => some (ps.foldl min p)

/-- Per-line `max_allowed_price`: `round(min_price * (1 + margin), 2)` when a
price margin is configured and at least one raw candidate carries a price. -/
def maxAllowedPrice (cfg : ProcessorConfig) (raw : List RawCandidate) : Option ℚ :=
  match cfg.price_margin, minPrice (raw.filterMap (fun c => c.price)) with
  | some margin, some mp => some (round2 (mp * (1 + margin)))
  | _, _ => none

/-- Rule set governing a candidate: the candidate-level override when
present, else the payload supplier map entry, else empty
(`candidate.get("supplier_rules") or supplier_meta.get("rules") or {}`). -/
def resolvedRules (suppliers : List (ℕ × SupplierRules)) (c : RawCandidate) :
    SupplierRules :=
  match c.supplier_rules with
  | some r => r
  | none => lookupRules suppliers c.supplier_id

/-- Check 1 (availability) contribution to the rejection reason list. -/
def availabilityReasons (is_av : Bool) : List String :=
  if is_av then [] else ["insufficient_quantity"]

/-- Check 2 (minimum line quantity) contribution:
`if min_line_qty and qty < min_line_qty`. -/
def minLineQtyReasons (rules : SupplierRules) (qty : ℕ) : List String :=
  match rules.min_line_qty with
  | some m => if m ≠ 0 ∧ (qty : ℚ) < m then ["below_min_line_qty"] else []
  | none => []

/-- Check 3 (price margin) contribution: a priced candidate strictly above
the line's `max_allowed_price`. -/
def priceMarginReasons (max_allowed_price : Option ℚ) (price : Option ℚ) :
    List String :=
  match max_allowed_price, price with
  | some ma, some pr => if ma < pr then ["price_above_margin"] else []
  | _, _ => []

/-- Check 4a (blacklist) contribution. -/
def blacklistReasons (rules : SupplierRules) : List String :=
  if rules.blacklisted then ["supplier_blacklisted"] else []

/-- Check 4b (policy filters) contribution:
`candidate.get("policy_filters") or policies.get("filters")`. -/
def policyFilterReasons (rules : SupplierRules) (c : RawCandidate) : List String :=
  if (if c.policy_filters ≠ [] then c.policy_filters else rules.filters) ≠ [] then
    ["filtered_out_by_policy"]
  else []

/-- The full rejection reason list of one candidate, accumulated in the
source's append order (checks 1 through 4). -/
def rejectionReasonsOf (cfg : ProcessorConfig) (rules : SupplierRules) (qty : ℕ)
    (max_allowed_price : Option ℚ) (c : RawCandidate) : List String :=
  availabilityReasons (is_candidate_available cfg qty c.availability_qty).1 ++
    minLineQtyReasons rules qty ++
    priceMarginReasons max_allowed_price c.price ++
    blacklistReasons rules ++
    policyFilterReasons rules c

/-- Check 5 (minimum order amount risk): the risk flag, the structured
details and the contribution to the line's `min_order_amount_risks` list.
Fires only for a truthy `min_order_amount` and a priced candidate with a
positive `delta_amount`. -/
def moaInfo (line_no : ℕ) (qty : ℕ) (rules : SupplierRules) (sid : ℕ)
    (price : Option ℚ) : Bool × Option MoaDetails × List (ℕ × MoaDetails) :=
  match rules.min_order_amount, price with
  | some m, some pr =>
    if m ≠ 0 then
      let lt : ℚ := pr * (qty : ℚ)
      let delta : ℚ := m - lt
      if 0 < delta then
        let d : MoaDetails :=
          { supplier_id := sid
            required_amount := m
            actual_amount := round2 lt
            delta_amount := round2 delta
            suggested_qty_increase := if pr ≠ 0 then some ⌈delta / pr⌉ else none }
        (true, some d, [(line_no, d)])
      else (false, none, [])
    else (false, none, [])
  | _, _ => (false, none, [])

/-- Classification of one candidate: the body of the inner loop of
`filter_and_classify_candidates`.  Returns the enriched candidate and the
entries this candidate contributes to `min_order_amount_risks`. -/
def classifyCandidate (cfg : ProcessorConfig) (suppliers : List (ℕ × SupplierRules))
    (line_no : ℕ) (qty : ℕ) (max_allowed_price : Option ℚ) (c : RawCandidate) :
    EnrichedCandidate × List (ℕ × MoaDetails) :=
  let rules := resolvedRules suppliers c
  let reasons := rejectionReasonsOf cfg rules qty max_allowed_price c
  let moa := moaInfo line_no qty rules c.supplier_id c.price
  ({ supplier_id := c.supplier_id
     price := c.price
     availability_qty := c.availability_qty
     pack_code := c.pack_code
     pack_match_status := c.pack_match_status
     is_available := (is_candidate_available cfg qty c.availability_qty).1
     sufficient_qty := match c.availability_qty with
       | none => true
       | some a => decide ((qty : ℚ) ≤ a)
     shortage_pct := ((is_candidate_available cfg qty c.availability_qty).2).map round2
     line_total := c.price.map (fun pr => pr * (qty : ℚ))
     min_order_amount_risk := moa.1
     min_order_amount_details := moa.2.1
     eligible_for_solver := decide (reasons = [])
     rejected_reason := reasons.head?
     rejection_reasons := reasons }, moa.2.2)

/-- Classification of one order line: the body of the outer loop of
`filter_and_classify_candidates`. -/
def classifyItem (cfg : ProcessorConfig) (suppliers : List (ℕ × SupplierRules))
    (it : RawItem) : EnrichedItem :=
  let map := maxAllowedPrice cfg it.candidates
  let pairs := it.candidates.map (classifyCandidate cfg suppliers it.line_no it.qty map)
  let allCands := pairs.map (fun p => p.1)
  let risks := pairs.flatMap (fun p => p.2)
  let elig := allCands.filter (fun c => c.eligible_for_solver)
  { line_no := it.line_no
    qty := it.qty
    match_status := it.match_status
    match_score := it.match_score
    candidates_raw_count := it.candidates.length
    candidates := elig
    candidates_all := allCands
    max_allowed_price := map
    min_order_amount_risks := risks
    goes_to_solver :=
      (it.match_status = MatchStatus.ok ∨ it.match_status = MatchStatus.manual_override) ∧
        elig ≠ [] }

/-- `candidate.filter_and_classify_candidates`: classify every line of the
raw payload against the configured business rules. -/
def filter_and_classify_candidates (cfg : ProcessorConfig) (p : RawPayload) :
    EnrichedPayload :=
  { order_id := p.order_id
    items := p.items.map (classifyItem cfg p.suppliers)
    suppliers := p.suppliers }

/-- One `cannot_close` breakdown entry (`line_no`, reason code, and — for
minimum-order-amount shortfall entries — the structured details). -/
structure CannotEntry where
  line_no : ℕ
  reason : String
  details : Option MoaDetails := none
deriving DecidableEq, Repr

/-- Status details: order status plus the three breakdown buckets and the
derived counts (`status_details` in the source). -/
structure StatusDetails where
  order_status : OrderStatus
  fully_closed : List ℕ
  partially_closed : List ℕ
  cannot_close : List CannotEntry
  counts_fully : ℕ
  counts_partially : ℕ
  counts_cannot : ℕ
deriving DecidableEq, Repr

/-- The fixed priority order of rejection reason codes used by
`_derive_line_reasons`. -/
def reasonPriority : List String :=
  ["insufficient_quantity", "below_min_line_qty", "price_above_margin",
   "supplier_blacklisted", "filtered_out_by_policy", "min_order_amount_risk",
   "no_available_candidates"]

/-- `status._derive_line_reasons`: one entry per rejection reason code
present on any candidate of the line, in priority order, with the
`no_available_candidates` fallback when no candidate carries a reason.
(The per-entry detail payloads are not modelled: nothing downstream
branches on them.) -/
def deriveLineReasons (it : EnrichedItem) : List CannotEntry :=
  let codes := reasonPriority.filter
    (fun code => it.candidates_all.any (fun c => c.rejection_reasons.contains code))
  if codes.isEmpty then
    [{ line_no := it.line_no, reason := "no_available_candidates" }]
  else
    codes.map (fun code => { line_no := it.line_no, reason := code })

/-- Per-line outcome inside `determine_status`: either a list of
`cannot_close` entries, or `Sum.inr b` where `b` tells whether some solver
candidate has sufficient quantity (`true` = fully closed). -/
def dsItem (it : EnrichedItem) : List CannotEntry ⊕ Bool :=
  if it.match_status = MatchStatus.no_match then
    Sum.inl [{ line_no := it.line_no, reason := "unknown_plant" }]
  else if it.match_status = MatchStatus.low_confidence then
    Sum.inl [{ line_no := it.line_no, reason := "low_confidence_match" }]
  else if it.candidates_raw_count = 0 then
    Sum.inl [{ line_no := it.line_no, reason := "no_candidates_raw" }]
  else if ¬ it.goes_to_solver then
    Sum.inl (deriveLineReasons it)
  else
    Sum.inr (it.candidates.any (fun c => c.sufficient_qty))

/-- Per-item classification inside `determine_order_status`: `none` means
the item counts as cannot-close, `some true` fully, `some false` partially. -/
def dosItem (it : EnrichedItem) : Option Bool :=
  if it.match_status = MatchStatus.no_match ∨
      it.match_status = MatchStatus.low_confidence then
    none
  else
    let avail := it.candidates.filter (fun c => c.is_available)
    if avail = [] then none
    else some (avail.any (fun c => c.sufficient_qty))

/-- `status.determine_order_status`: overall status from per-item counters. -/
def determine_order_status (items : List EnrichedItem) : OrderStatus :=
  let cannotN := items.countP (fun it => dosItem it = none)
  let partialN := items.countP (fun it => dosItem it = some false)
  if 0 < cannotN then OrderStatus.cannot_close
  else if 0 < partialN then OrderStatus.partially_closed
  else OrderStatus.fully_closed

/-- The three breakdown buckets accumulated by the `determine_status` loop. -/
def dsBuckets : List EnrichedItem → List ℕ × List ℕ × List CannotEntry
  | [] => ([], [], [])
  | it :: rest =>
    let (f, p, c) := dsBuckets rest
    match dsItem it with
    | Sum.inl entries => (f, p, entries ++ c)
    | Sum.inr true => (it.line_no :: f, p, c)
    | Sum.inr false => (f, it.line_no :: p, c)

/-- `status._refresh_status_counts`: recompute the counts from the buckets
(a set of line numbers per bucket, so duplicates count once). -/
def refreshCounts (sd : StatusDetails) : StatusDetails :=
  { sd with
    counts_fully := sd.fully_closed.dedup.length
    counts_partially := sd.partially_closed.dedup.length
    counts_cannot := (sd.cannot_close.map (fun e => e.line_no)).dedup.length }

/-- `status.determine_status`: per-line bucket assignment plus the
independently computed order-level status.  (The source keeps the first two
buckets as sorted sets; membership and counts are order-insensitive, so the
buckets are modelled as duplicate-free lists in encounter order.) -/
def determine_status (p : EnrichedPayload) : OrderStatus × StatusDetails :=
  let (f, pr, c) := dsBuckets p.items
  let st := determine_order_status p.items
  (st, refreshCounts
    { order_status := st
      fully_closed := f.dedup
      partially_closed := pr.dedup
      cannot_close := c
      counts_fully := 0
      counts_partially := 0
      counts_cannot := 0 })

/-- The stream of minimum-order-amount annotations scanned by
`_calculate_min_order_shortfalls`: for every item, for every classified
candidate carrying `min_order_amount_details`, the line number, the
resolved supplier id (details value with the candidate's id as fallback
when falsy) and the details. -/
def moaAnnotations (p : EnrichedPayload) : List (ℕ × ℕ × MoaDetails) :=
  p.items.flatMap (fun it =>
    it.candidates_all.filterMap (fun c =>
      match c.min_order_amount_details with
      | some d =>
        some (it.line_no, (if d.supplier_id = 0 then c.supplier_id else d.supplier_id), d)
      | none => none))

/-- The `(line_no, supplier_id)` key of a minimum-order-amount annotation. -/
def shortKey (a : ℕ × ℕ × MoaDetails) : ℕ × ℕ := (a.1, a.2.1)

/-- The `cannot_close` entry built from a minimum-order-amount annotation. -/
def shortEntry (a : ℕ × ℕ × MoaDetails) : CannotEntry :=
  { line_no := a.1, reason := "min_order_amount_not_met", details := some a.2.2 }

/-- The delta the stored entry currently carries
(`shortfalls[key].get("details", {}).get("delta_amount", inf)`; a missing
delta compares as not-smaller, like infinity). -/
def storedDelta (a : ℕ × ℕ × MoaDetails) (e : (ℕ × ℕ) × CannotEntry) : ℚ :=
  match e.2.details with
  | some d => d.delta_amount
  | none => a.2.2.delta_amount

/-- One step of the shortfall accumulation: insert the annotation under its
`(line_no, supplier_id)` key, replacing an existing entry only when the new
`delta_amount` is strictly smaller (insertion order is preserved, as for a
Python dict). -/
def insertShortfall (acc : List ((ℕ × ℕ) × CannotEntry)) (a : ℕ × ℕ × MoaDetails) :
    List ((ℕ × ℕ) × CannotEntry) :=
  if (acc.find? (fun e => e.1 = shortKey a)).isSome then
    acc.map (fun e =>
      if e.1 = shortKey a ∧ a.2.2.delta_amount < storedDelta a e then
        (shortKey a, shortEntry a)
      else e)
  else
    acc ++ [(shortKey a, shortEntry a)]

/-- `status._calculate_min_order_shortfalls`: one entry per
`(line_no, supplier_id)` pair carrying a risk annotation, keeping the entry
with the smallest `delta_amount` for that pair. -/
def calculate_min_order_shortfalls (p : EnrichedPayload) : List CannotEntry :=
  ((moaAnnotations p).foldl insertShortfall []).map (fun e => e.2)

/-- The infeasibility demotion step of `processor.process_order`: when
shortfalls were detected, remove the impacted lines from the
`fully_closed`/`partially_closed` buckets, append the shortfall entries to
`cannot_close`, force the order status to `cannot_close` and refresh the
counts. -/
def applyShortfalls (sd : StatusDetails) (shortfalls : List CannotEntry) :
    StatusDetails :=
  if shortfalls.isEmpty then sd
  else
    let impacted := shortfalls.map (fun e => e.line_no)
    refreshCounts
      { order_status := OrderStatus.cannot_close
        fully_closed := sd.fully_closed.filter (fun l => l ∉ impacted)
        partially_closed := sd.partially_closed.filter (fun l => l ∉ impacted)
        cannot_close := sd.cannot_close ++ shortfalls
        counts_fully := sd.counts_fully
        counts_partially := sd.counts_partially
        counts_cannot := sd.counts_cannot }

/-- One flattened solver candidate (`all_candidates[..]` in
`solve_assignment`): global index, owning item index, line data and the
candidate fields the model reads. -/
structure SolverCand where
  idx : ℕ
  itemIdx : ℕ
  line_no : ℕ
  qty : ℕ
  supplier_id : ℕ
  pack_match_status : Option String
  price : Option ℚ
deriving DecidableEq, Repr

/-- `b2n`: the 0/1 value of a boolean decision variable. -/
def b2n : Bool → ℕ
  | true => 1
  | false => 0

/-- Flattening loop of `solve_assignment`: builds the flat candidate list of
one item starting at global index `start`, together with that item's
candidate-index list (`item_candidate_map[item_idx]`). -/
def buildItemCands (itemIdx : ℕ) (line_no : ℕ) (qty : ℕ) :
    ℕ → List EnrichedCandidate → List SolverCand × List ℕ
  | _, [] => ([], [])
  | start, c :: cs =>
    let rest := buildItemCands itemIdx line_no qty (start + 1) cs
    ({ idx := start, itemIdx := itemIdx, line_no := line_no, qty := qty
       supplier_id := c.supplier_id, pack_match_status := c.pack_match_status
       price := c.price } :: rest.1,
     start :: rest.2)

/-- Flattening loop of `solve_assignment` over all solver items: the flat
candidate list and the per-item candidate-index map. -/
def buildFlat : ℕ → ℕ → List EnrichedItem → List SolverCand × List (List ℕ)
  | _, _, [] => ([], [])
  | itemIdx, start, it :: rest =>
    let mine := buildItemCands itemIdx it.line_no it.qty start it.candidates
    let later := buildFlat (itemIdx + 1) (start + it.candidates.length) rest
    (mine.1 ++ later.1, mine.2 :: later.2)

/-- Items entering the model: `goes_to_solver` lines only. -/
def solverItems (p : EnrichedPayload) : List EnrichedItem :=
  p.items.filter (fun it => it.goes_to_solver)

/-- Flat candidate list of the model built from a payload. -/
def allCandidates (p : EnrichedPayload) : List SolverCand :=
  (buildFlat 0 0 (solverItems p)).1

/-- The per-item candidate-index map of the model. -/
def itemCandidateMap (p : EnrichedPayload) : List (List ℕ) :=
  (buildFlat 0 0 (solverItems p)).2

/-- The distinct supplier ids appearing among the model's candidates
(`supplier_ids`; the source also sorts them, which no constraint reads). -/
def supplierIds (p : EnrichedPayload) : List ℕ :=
  ((allCandidates p).map (fun c => c.supplier_id)).dedup

/-- Candidate line amount in integer cents: `int(float(price) * qty * 100)`. -/
def amountCents (price : ℚ) (qty : ℕ) : ℤ :=
  truncToInt (price * (qty : ℚ) * 100)

/-- The model's terms for one supplier's minimum-order-amount constraint:
that supplier's candidates carrying a price (`if price is None: continue`). -/
def supplierTerms (p : EnrichedPayload) (s : ℕ) : List SolverCand :=
  (allCandidates p).filter (fun c => c.supplier_id = s ∧ c.price.isSome)

/-- Value of one supplier's minimum-order-amount sum under an assignment of
the candidate variables. -/
def sumCents (p : EnrichedPayload) (s : ℕ) (x : ℕ → Bool) : ℤ :=
  ((supplierTerms p s).map (fun c =>
    (match c.price with
     | some pr => amountCents pr c.qty
     | none => 0) * (b2n (x c.idx) : ℤ))).sum

/-- Exactly-one constraint: each solver item selects exactly one candidate. -/
def exactlyOne (p : EnrichedPayload) (x : ℕ → Bool) : Prop :=
  ∀ idxs ∈ itemCandidateMap p, idxs.countP x = 1

/-- Linking constraints: a selected candidate forces its supplier used. -/
def linking (p : EnrichedPayload) (x y : ℕ → Bool) : Prop :=
  ∀ c ∈ allCandidates p, x c.idx = true → y c.supplier_id = true

/-- Minimum-order-amount constraints: for each supplier whose rules carry a
truthy `min_order_amount` and whose term list is non-empty, the selected
cents sum is at least `min_amount_cents * y[supplier]`. -/
def moaConstraints (p : EnrichedPayload) (x y : ℕ → Bool) : Prop :=
  ∀ s ∈ supplierIds p, ∀ m ∈ (lookupRules p.suppliers s).min_order_amount,
    m ≠ 0 → supplierTerms p s ≠ [] →
    truncToInt (m * 100) * (b2n (y s) : ℤ) ≤ sumCents p s x

/-- Feasibility of an assignment for the CP-SAT model of
`solve_assignment`: the conjunction of its three constraint families. -/
def feasible (p : EnrichedPayload) (x y : ℕ → Bool) : Prop :=
  exactlyOne p x ∧ linking p x y ∧ moaConstraints p x y

instance (p : EnrichedPayload) (x : ℕ → Bool) : Decidable (exactlyOne p x) :=
  inferInstanceAs (Decidable (∀ idxs ∈ itemCandidateMap p, idxs.countP x = 1))

instance (p : EnrichedPayload) (x y : ℕ → Bool) : Decidable (linking p x y) :=
  inferInstanceAs
    (Decidable (∀ c ∈ allCandidates p, x c.idx = true → y c.supplier_id = true))

instance (p : EnrichedPayload) (x y : ℕ → Bool) : Decidable (moaConstraints p x y) :=
  inferInstanceAs (Decidable
    (∀ s ∈ supplierIds p, ∀ m ∈ (lookupRules p.suppliers s).min_order_amount,
      m ≠ 0 → supplierTerms p s ≠ [] →
      truncToInt (m * 100) * (b2n (y s) : ℤ) ≤ sumCents p s x))

instance (p : EnrichedPayload) (x y : ℕ → Bool) : Decidable (feasible p x y) :=
  inferInstanceAs (Decidable (_ ∧ _ ∧ _))

/-- Number of suppliers marked used by an assignment. -/
def suppliersUsedCount (p : EnrichedPayload) (y : ℕ → Bool) : ℕ :=
  ((supplierIds p).filter (fun s => y s)).length

/-- Container penalty sum: 1 per selected candidate whose pack match status
is `"alike"`, 0 otherwise. -/
def penaltySum (p : EnrichedPayload) (x : ℕ → Bool) : ℕ :=
  ((allCandidates p).map (fun c =>
    (if c.pack_match_status = some "alike" then 1 else 0) * b2n (x c.idx))).sum

/-- The minimized objective of `solve_assignment` under the configured
optimization priority. -/
def objective (cfg : ProcessorConfig) (p : EnrichedPayload) (x y : ℕ → Bool) : ℕ :=
  match cfg.optimization_priority with
  | OptPriority.container_match => suppliersUsedCount p y * 1000 + penaltySum p x
  | OptPriority.suppliers_count => suppliersUsedCount p y

/-- Classifier state for the re-run experiment: the only cross-call state
the classification mixin reads is the immutable `ProcessorConfig`
(`self.config`); logging writes no state the classifier reads back. -/
structure ClassifierState where
  config : ProcessorConfig

/-- Running the classification step against the mixin state: it reads the
configuration and leaves the state untouched. -/
def runClassification (st : ClassifierState) (p : RawPayload) :
    EnrichedPayload × ClassifierState :=
  (filter_and_classify_candidates st.config p, st)

section Lemmas

lemma mem_availabilityReasons {b : Bool} {r : String}
    (h : r ∈ availabilityReasons b) : r = "insufficient_quantity" := by
  unfold availabilityReasons at h
  split at h <;> simp_all

lemma mem_minLineQtyReasons {rules : SupplierRules} {qty : ℕ} {r : String}
    (h : r ∈ minLineQtyReasons rules qty) : r = "below_min_line_qty" := by
  unfold minLineQtyReasons at h
  split at h <;> [skip; simp_all]
  split at h <;> simp_all

lemma mem_priceMarginReasons {map price : Option ℚ} {r : String}
    (h : r ∈ priceMarginReasons map price) : r = "price_above_margin" := by
  unfold priceMarginReasons at h
  split at h <;> [skip; simp_all]
  split at h <;> simp_all

lemma mem_blacklistReasons {rules : SupplierRules} {r : String}
    (h : r ∈ blacklistReasons rules) : r = "supplier_blacklisted" := by
  unfold blacklistReasons at h
  split at h <;> simp_all

lemma mem_policyFilterReasons {rules : SupplierRules} {c : RawCandidate} {r : String}
    (h : r ∈ policyFilterReasons rules c) : r = "filtered_out_by_policy" := by
  unfold policyFilterReasons at h
  split at h <;> simp_all

/-- Every rejection reason code comes from one of the four hard checks. -/
lemma mem_rejectionReasonsOf {cfg : ProcessorConfig} {rules : SupplierRules}
    {qty : ℕ} {map : Option ℚ} {c : RawCandidate} {r : String}
    (h : r ∈ rejectionReasonsOf cfg rules qty map c) :
    r = "insufficient_quantity" ∨ r = "below_min_line_qty" ∨
      r = "price_above_margin" ∨ r = "supplier_blacklisted" ∨
      r = "filtered_out_by_policy" := by
  unfold rejectionReasonsOf at h
  simp only [List.append_assoc, List.mem_append] at h
  rcases h with h | h | h | h | h
  · exact Or.inl (mem_availabilityReasons h)
  · exact Or.inr (Or.inl (mem_minLineQtyReasons h))
  · exact Or.inr (Or.inr (Or.inl (mem_priceMarginReasons h)))
  · exact Or.inr (Or.inr (Or.inr (Or.inl (mem_blacklistReasons h))))
  · exact Or.inr (Or.inr (Or.inr (Or.inr (mem_policyFilterReasons h))))

end Lemmas

/-- C4 counterexample: for requested quantity 4 and available quantity 1 the
code computes `shortage_pct = 75` (a percentage), which is neither the
fraction `(4 - 1) / 4` nor inside `[0, 1)` as the claim states. -/
theorem C4_counterexample :
    (is_candidate_available {} 4 (some 1)).2 = some 75 ∧
      ¬ ((75 : ℚ) = ((4 : ℚ) - 1) / 4) ∧ ¬ ((75 : ℚ) < 1) := by
  refine ⟨?_, by norm_num, by norm_num⟩
  norm_num [is_candidate_available]

/-- C4 (amended): `shortage_pct` is `None` iff `available_qty` is
unspecified or ≥ requested; otherwise it equals
`(requested - available) / requested * 100` — a percentage — and, for a
non-negative available quantity, lies within `(0, 100]`. -/
theorem C4_shortage_pct (cfg : ProcessorConfig) (req : ℕ) (avail : Option ℚ) :
    ((is_candidate_available cfg req avail).2 = none ↔
      avail = none ∨ ∃ a : ℚ, avail = some a ∧ (req : ℚ) ≤ a) ∧
    (∀ a : ℚ, avail = some a → a < (req : ℚ) →
      (is_candidate_available cfg req avail).2
          = some ((((req : ℚ) - a) / (req : ℚ)) * 100) ∧
        (0 ≤ a →
          0 < (((req : ℚ) - a) / (req : ℚ)) * 100 ∧
            (((req : ℚ) - a) / (req : ℚ)) * 100 ≤ 100)) := by
  constructor
  · cases avail with
    | none => simp [is_candidate_available]
    | some a =>
      by_cases h : (req : ℚ) ≤ a
      · simp [is_candidate_available, h]
      · simp only [is_candidate_available, if_neg h]
        split <;> simp_all
  · intro a ha hlt
    subst ha
    have hreq0 : ¬ (req : ℚ) ≤ a := not_le.mpr hlt
    have hres : (is_candidate_available cfg req (some a)).2
        = some ((((req : ℚ) - a) / (req : ℚ)) * 100) := by
      simp only [is_candidate_available, if_neg hreq0]
      split <;> rfl
    refine ⟨hres, fun ha0 => ?_⟩
    have hreq : (0 : ℚ) < (req : ℚ) := lt_of_le_of_lt ha0 hlt
    have hs0 : 0 < ((req : ℚ) - a) / (req : ℚ) :=
      div_pos (by linarith) hreq
    have hs1 : ((req : ℚ) - a) / (req : ℚ) ≤ 1 := by
      rw [div_le_one hreq]; linarith
    constructor
    · positivity
    · nlinarith

/-- Witness for C4: at requested 4, available 1 the hypotheses hold and the
computed shortage is `(4 - 1) / 4 * 100 = 75`, inside `(0, 100]`. -/
theorem C4_shortage_pct_witness :
    (is_candidate_available {} 4 (some 1)).2
        = some ((((4 : ℚ) - 1) / (4 : ℚ)) * 100) ∧
      0 < (((4 : ℚ) - 1) / (4 : ℚ)) * 100 ∧
        (((4 : ℚ) - 1) / (4 : ℚ)) * 100 ≤ 100 := by
  have h := (C4_shortage_pct {} 4 (some 1)).2 1 rfl (by norm_num)
  exact ⟨h.1, h.2 (by norm_num)⟩

/-- C2: a candidate is `eligible_for_solver` iff its rejection reason list
is empty; that list only ever carries codes of the four hard checks
(availability, minimum line quantity, price margin, blacklist/policy), and
in particular never `min_order_amount_risk`. -/
theorem C2_eligible_iff_no_hard_rejection (cfg : ProcessorConfig)
    (suppliers : List (ℕ × SupplierRules)) (line_no qty : ℕ)
    (map : Option ℚ) (c : RawCandidate) :
    ((classifyCandidate cfg suppliers line_no qty map c).1.eligible_for_solver = true ↔
      (classifyCandidate cfg suppliers line_no qty map c).1.rejection_reasons = []) ∧
    "min_order_amount_risk" ∉
      (classifyCandidate cfg suppliers line_no qty map c).1.rejection_reasons ∧
    ∀ r ∈ (classifyCandidate cfg suppliers line_no qty map c).1.rejection_reasons,
      r = "insufficient_quantity" ∨ r = "below_min_line_qty" ∨
        r = "price_above_margin" ∨ r = "supplier_blacklisted" ∨
        r = "filtered_out_by_policy" := by
  refine ⟨decide_eq_true_iff, ?_, fun r hr => mem_rejectionReasonsOf hr⟩
  intro h
  rcases mem_rejectionReasonsOf h with h' | h' | h' | h' | h' <;> simp at h'

/-- Witness for C2: a candidate hitting no check is eligible, and on a
blacklisted candidate the reason list is exactly the blacklist code. -/
theorem C2_eligible_iff_no_hard_rejection_witness :
    (classifyCandidate {} [] 1 1 none { supplier_id := 1 }).1.eligible_for_solver
      = true := by
  exact (C2_eligible_iff_no_hard_rejection {} [] 1 1 none
    { supplier_id := 1 }).1.mpr rfl

/-- C9: classification is deterministic — running it a second time on the
same raw payload from the post-state of the first run yields the identical
enriched output, and the mixin state (the immutable configuration) is
unchanged. -/
theorem C9_classification_idempotent (st : ClassifierState) (p : RawPayload) :
    (runClassification ((runClassification st p).2) p).1 = (runClassification st p).1 ∧
      (runClassification st p).2 = st :=
  ⟨rfl, rfl⟩

section PriceMarginLemmas

/-- The price-margin check never fires for a priceless candidate. -/
lemma priceMarginReasons_none (map : Option ℚ) : priceMarginReasons map none = [] := by
  cases map <;> rfl

lemma priceMarginReasons_some_some (ma p : ℚ) :
    priceMarginReasons (some ma) (some p)
      = if ma < p then ["price_above_margin"] else [] := rfl

/-- `foldl min` is a lower bound of its seed and of every list element. -/
lemma foldl_min_le {l : List ℚ} {a : ℚ} :
    l.foldl min a ≤ a ∧ ∀ q ∈ l, l.foldl min a ≤ q := by
  induction l generalizing a with
  | nil => simp
  | cons b t ih =>
    refine ⟨le_trans (ih (a := min a b)).1 (min_le_left _ _), ?_⟩
    intro q hq
    rcases List.mem_cons.mp hq with rfl | hq
    · exact le_trans (ih (a := min a q)).1 (min_le_right _ _)
    · exact (ih (a := min a b)).2 q hq

/-- `minPrice` returns a lower bound of the price list. -/
lemma minPrice_le {l : List ℚ} {mp : ℚ} (h : minPrice l = some mp) :
    ∀ q ∈ l, mp ≤ q := by
  cases l with
  | nil => simp [minPrice] at h
  | cons b t =>
    simp only [minPrice, Option.some.injEq] at h
    intro q hq
    rcases List.mem_cons.mp hq with rfl | hq
    · exact h ▸ foldl_min_le.1
    · exact h ▸ foldl_min_le.2 q hq

/-- The price-margin rejection fires exactly on candidates priced strictly
above the line's `max_allowed_price`. -/
lemma price_above_margin_mem_iff (cfg : ProcessorConfig) (rules : SupplierRules)
    (qty : ℕ) (ma : ℚ) (c : RawCandidate) :
    "price_above_margin" ∈ rejectionReasonsOf cfg rules qty (some ma) c ↔
      ∃ p : ℚ, c.price = some p ∧ ma < p := by
  unfold rejectionReasonsOf
  simp only [List.append_assoc, List.mem_append]
  constructor
  · rintro (h | h | h | h | h)
    · exact absurd (mem_availabilityReasons h) (by decide)
    · exact absurd (mem_minLineQtyReasons h) (by decide)
    · cases hp : c.price with
      | none => rw [hp, priceMarginReasons_none] at h; simp at h
      | some p =>
        rw [hp, priceMarginReasons_some_some] at h
        by_cases hlt : ma < p
        · exact ⟨p, rfl, hlt⟩
        · rw [if_neg hlt] at h; simp at h
    · exact absurd (mem_blacklistReasons h) (by decide)
    · exact absurd (mem_policyFilterReasons h) (by decide)
  · rintro ⟨p, hp, hlt⟩
    refine Or.inr (Or.inr (Or.inl ?_))
    rw [hp, priceMarginReasons_some_some, if_pos hlt]
    exact List.mem_singleton.mpr rfl

end PriceMarginLemmas

/-- The two raw candidates of the C7 counterexample line: prices `10.01`
and `11.011`. -/
def rawC7cands : List RawCandidate :=
  [{ supplier_id := 1, price := some (1001 / 100) },
   { supplier_id := 2, price := some (11011 / 1000) }]

/-- C7 counterexample: with margin `0.10` and raw prices `{10.01, 11.011}`,
the exact bound `min_price * (1 + margin)` is `11.011`, so the claim
retains the candidate priced `11.011`; the code rounds the bound to `11.01`
and rejects that candidate with `price_above_margin`. -/
theorem C7_counterexample :
    "price_above_margin" ∈ (classifyCandidate { price_margin := some (1 / 10) } [] 1 1
        (maxAllowedPrice { price_margin := some (1 / 10) } rawC7cands)
        { supplier_id := 2, price := some (11011 / 1000) }).1.rejection_reasons ∧
      ¬ ((1001 / 100 : ℚ) * (1 + 1 / 10) < 11011 / 1000) := by
  constructor
  · have h1 : minPrice (rawC7cands.filterMap (fun c => c.price))
        = some (1001 / 100) := by
      have h0 : rawC7cands.filterMap (fun c => c.price)
          = [1001 / 100, 11011 / 1000] := rfl
      rw [h0]
      norm_num [minPrice, min_def]
    have hma : maxAllowedPrice { price_margin := some (1 / 10) } rawC7cands
        = some (1101 / 100) := by
      unfold maxAllowedPrice
      rw [h1]
      show some (round2 ((1001 / 100) * (1 + 1 / 10))) = some (1101 / 100)
      norm_num [round2, roundHalfEven, Int.floor_eq_iff]
    rw [hma]
    show "price_above_margin" ∈ rejectionReasonsOf _ _ _ _ _
    rw [price_above_margin_mem_iff]
    exact ⟨11011 / 1000, rfl, by norm_num⟩
  · norm_num

/-- The raw candidates of the C7 example line: prices `10`, `11`, `15`. -/
def rawC7ex : List RawCandidate :=
  [{ supplier_id := 1, price := some 10 },
   { supplier_id := 2, price := some 11 },
   { supplier_id := 3, price := some 15 }]

/-- C7 (amended): with a configured margin, `max_allowed_price` is the
minimum price over all raw candidates of the line times `(1 + margin)`,
*rounded to two decimals* (round-half-even); rejected with
`price_above_margin` are exactly the candidates priced strictly above that
rounded bound.  For raw prices `{10, 11, 15}` and margin `0.10` the bound
is `11.0` and exactly the candidate at `15` is rejected. -/
theorem C7_price_margin (cfg : ProcessorConfig) (raw : List RawCandidate)
    (margin : ℚ) (hmargin : cfg.price_margin = some margin) (mp : ℚ)
    (hmp : minPrice (raw.filterMap (fun c => c.price)) = some mp) :
    maxAllowedPrice cfg raw = some (round2 (mp * (1 + margin))) ∧
    (∀ p ∈ raw.filterMap (fun c => c.price), mp ≤ p) ∧
    (∀ (rules : SupplierRules) (qty : ℕ) (c : RawCandidate),
      "price_above_margin" ∈ rejectionReasonsOf cfg rules qty
          (maxAllowedPrice cfg raw) c ↔
        ∃ p : ℚ, c.price = some p ∧ round2 (mp * (1 + margin)) < p) ∧
    (maxAllowedPrice { price_margin := some (1 / 10) } rawC7ex = some 11 ∧
      "price_above_margin" ∉ rejectionReasonsOf { price_margin := some (1 / 10) }
        {} 1 (maxAllowedPrice { price_margin := some (1 / 10) } rawC7ex)
        { supplier_id := 1, price := some 10 } ∧
      "price_above_margin" ∉ rejectionReasonsOf { price_margin := some (1 / 10) }
        {} 1 (maxAllowedPrice { price_margin := some (1 / 10) } rawC7ex)
        { supplier_id := 2, price := some 11 } ∧
      "price_above_margin" ∈ rejectionReasonsOf { price_margin := some (1 / 10) }
        {} 1 (maxAllowedPrice { price_margin := some (1 / 10) } rawC7ex)
        { supplier_id := 3, price := some 15 }) := by
  have hma : maxAllowedPrice cfg raw = some (round2 (mp * (1 + margin))) := by
    unfold maxAllowedPrice
    rw [hmargin, hmp]
  have h1 : minPrice (rawC7ex.filterMap (fun c => c.price)) = some 10 := by
    have h0 : rawC7ex.filterMap (fun c => c.price) = [10, 11, 15] := rfl
    rw [h0]
    norm_num [minPrice, min_def]
  have hex : maxAllowedPrice { price_margin := some (1 / 10) } rawC7ex = some 11 := by
    unfold maxAllowedPrice
    rw [h1]
    show some (round2 ((10 : ℚ) * (1 + 1 / 10))) = some 11
    norm_num [round2, roundHalfEven, Int.floor_eq_iff]
  refine ⟨hma, minPrice_le hmp, ?_, hex, ?_, ?_, ?_⟩
  · intro rules qty c
    rw [hma]
    exact price_above_margin_mem_iff cfg rules qty _ c
  · rw [hex, price_above_margin_mem_iff]
    rintro ⟨p, hp, hlt⟩
    simp only [Option.some.injEq] at hp
    rw [← hp] at hlt
    norm_num at hlt
  · rw [hex, price_above_margin_mem_iff]
    rintro ⟨p, hp, hlt⟩
    simp only [Option.some.injEq] at hp
    rw [← hp] at hlt
    norm_num at hlt
  · rw [hex, price_above_margin_mem_iff]
    exact ⟨15, rfl, by norm_num⟩

/-- Witness for C7: at margin `0.10` and raw prices `{10, 11, 15}` the
hypotheses hold, the bound is `round2 (10 * 1.1)` and the candidate priced
`15` is rejected. -/
theorem C7_price_margin_witness :
    maxAllowedPrice { price_margin := some (1 / 10) } rawC7ex
        = some (round2 (10 * (1 + 1 / 10))) ∧
      "price_above_margin" ∈ rejectionReasonsOf { price_margin := some (1 / 10) }
        {} 1 (maxAllowedPrice { price_margin := some (1 / 10) } rawC7ex)
        { supplier_id := 3, price := some 15 } := by
  have h := C7_price_margin { price_margin := some (1 / 10) } rawC7ex (1 / 10) rfl 10
    (by
      rw [show rawC7ex.filterMap (fun c => c.price) = [10, 11, 15] from rfl]
      norm_num [minPrice, min_def])
  refine ⟨h.1, ?_⟩
  rw [h.2.2.1 {} 1 { supplier_id := 3, price := some 15 }]
  refine ⟨15, rfl, ?_⟩
  norm_num [round2, roundHalfEven]

/-- Concrete payload for C10: one line (qty 5) whose only candidate has no
price, offered by supplier 7 which defines `min_order_amount = 5000`. -/
def rawC10 : RawPayload :=
  { order_id := 1
    items := [{ line_no := 1, qty := 5, match_status := MatchStatus.ok,
                candidates := [{ supplier_id := 7 }] }]
    suppliers := [(7, { min_order_amount := some 5000 })] }

/-- C10: a priceless candidate is never rejected by the price-margin check
and never receives a minimum-order-amount risk annotation; a priceless
candidate never contributes a term to any supplier's minimum-order-amount
constraint; and concretely (payload `rawC10`) such a candidate is
`eligible_for_solver`, its line goes to the solver, and selecting it with
its min-order-amount supplier marked used is feasible for the model. -/
theorem C10_priceless_candidate (cfg : ProcessorConfig)
    (suppliers : List (ℕ × SupplierRules)) (line_no qty : ℕ) (map : Option ℚ)
    (c : RawCandidate) (hp : c.price = none) :
    "price_above_margin" ∉
      (classifyCandidate cfg suppliers line_no qty map c).1.rejection_reasons ∧
    (classifyCandidate cfg suppliers line_no qty map c).1.min_order_amount_risk
      = false ∧
    (classifyCandidate cfg suppliers line_no qty map c).1.min_order_amount_details
      = none ∧
    (∀ (q : EnrichedPayload) (s : ℕ), ∀ c' ∈ allCandidates q, c'.price = none →
      c' ∉ supplierTerms q s) ∧
    ((filter_and_classify_candidates {} rawC10).items.map
        (fun it => (it.goes_to_solver,
          it.candidates_all.map
            (fun cd => (cd.eligible_for_solver, cd.min_order_amount_risk)))))
      = [(true, [(true, false)])] ∧
    feasible (filter_and_classify_candidates {} rawC10)
      (fun _ => true) (fun _ => true) := by
  have hmoa : moaInfo line_no qty (resolvedRules suppliers c) c.supplier_id c.price
      = (false, none, []) := by
    unfold moaInfo
    rw [hp]
    cases h : (resolvedRules suppliers c).min_order_amount <;> rfl
  refine ⟨?_, ?_, ?_, ?_, by decide, by decide⟩
  · intro h
    have h' : "price_above_margin" ∈ rejectionReasonsOf cfg
        (resolvedRules suppliers c) qty map c := h
    unfold rejectionReasonsOf at h'
    rw [hp, priceMarginReasons_none, List.append_nil] at h'
    simp only [List.append_assoc, List.mem_append] at h'
    rcases h' with h' | h' | h' | h'
    · exact absurd (mem_availabilityReasons h') (by decide)
    · exact absurd (mem_minLineQtyReasons h') (by decide)
    · exact absurd (mem_blacklistReasons h') (by decide)
    · exact absurd (mem_policyFilterReasons h') (by decide)
  · show (moaInfo line_no qty (resolvedRules suppliers c) c.supplier_id c.price).1
      = false
    rw [hmoa]
  · show (moaInfo line_no qty (resolvedRules suppliers c) c.supplier_id c.price).2.1
      = none
    rw [hmoa]
  · intro q s c' _ hc' hmem
    have := (List.mem_filter.mp hmem).2
    rw [hc'] at this
    simp at this

/-- Witness for C10: the priceless candidate of `rawC10` is never
price-rejected and carries no minimum-order-amount risk annotation. -/
theorem C10_priceless_candidate_witness :
    "price_above_margin" ∉
      (classifyCandidate {} [] 1 5 none { supplier_id := 7 }).1.rejection_reasons ∧
    (classifyCandidate {} [] 1 5 none
        { supplier_id := 7 }).1.min_order_amount_risk = false :=
  have h := C10_priceless_candidate {} [] 1 5 none { supplier_id := 7 } rfl
  ⟨h.1, h.2.1⟩

/-- Raw payload of the C1 scenario: a single line of qty 10 whose only
candidate is priced 400 and offered by supplier 1, which defines
`min_order_amount = 5000` (line total 4000 < 5000). -/
def rawC1 : RawPayload :=
  { order_id := 1
    items := [{ line_no := 1, qty := 10, match_status := MatchStatus.ok,
                candidates := [{ supplier_id := 1, price := some 400 }] }]
    suppliers := [(1, { min_order_amount := some 5000 })] }

/-- The enriched payload of the C1 scenario. -/
def enrichedC1 : EnrichedPayload := filter_and_classify_candidates {} rawC1

/-- The single flattened solver candidate of the C1 scenario. -/
def solverCandC1 : SolverCand :=
  { idx := 0, itemIdx := 0, line_no := 1, qty := 10, supplier_id := 1,
    pack_match_status := none, price := some 400 }

/-- Raw payload of the C1 witness: two lines coverable by supplier 1 with
totals 4000 + 1500 = 5500 ≥ 5000. -/
def rawC1b : RawPayload :=
  { order_id := 2
    items := [{ line_no := 1, qty := 10, match_status := MatchStatus.ok,
                candidates := [{ supplier_id := 1, price := some 400 }] },
              { line_no := 2, qty := 5, match_status := MatchStatus.ok,
                candidates := [{ supplier_id := 1, price := some 300 }] }]
    suppliers := [(1, { min_order_amount := some 5000 })] }

/-- The enriched payload of the C1 witness scenario. -/
def enrichedC1b : EnrichedPayload := filter_and_classify_candidates {} rawC1b

/-- C1: in every feasible assignment, a used supplier with a truthy
configured minimum order amount and at least one priced candidate receives
at least `min_order_amount` cents from its selected candidates; and in the
concrete `rawC1` scenario (min order 5000, single line total 4000) the
model has no feasible assignment at all, so that supplier can never be
selected alone. -/
theorem C1_min_order_amount_constraint :
    (∀ (p : EnrichedPayload) (x y : ℕ → Bool), feasible p x y →
      ∀ s ∈ supplierIds p, ∀ m ∈ (lookupRules p.suppliers s).min_order_amount,
        m ≠ 0 → supplierTerms p s ≠ [] → y s = true →
        truncToInt (m * 100) ≤ sumCents p s x) ∧
    ¬ ∃ x y : ℕ → Bool, feasible enrichedC1 x y := by
  constructor
  · intro p x y hf s hs m hm hm0 hterms hys
    have h := hf.2.2 s hs m hm hm0 hterms
    rw [hys] at h
    simpa [b2n] using h
  · rintro ⟨x, y, hex, hlink, hmoa⟩
    have hx0 : x 0 = true := by
      have hmem : [0] ∈ itemCandidateMap enrichedC1 := by
        rw [show itemCandidateMap enrichedC1 = [[0]] from rfl]
        exact List.mem_singleton.mpr rfl
      have h := hex [0] hmem
      rcases hb : x 0 with _ | _
      · simp [List.countP, List.countP.go, hb] at h
      · rfl
    have hy1 : y 1 = true := by
      refine hlink solverCandC1 ?_ hx0
      rw [show allCandidates enrichedC1 = [solverCandC1] from rfl]
      exact List.mem_singleton.mpr rfl
    have h := hmoa 1 (by decide) 5000 rfl (by norm_num)
      (by
        rw [show supplierTerms enrichedC1 1 = [solverCandC1] from rfl]
        simp)
    rw [hy1] at h
    have hsum : sumCents enrichedC1 1 x
        = amountCents 400 10 * (b2n (x 0) : ℤ) + 0 := rfl
    rw [hsum, hx0] at h
    have h1 : amountCents 400 10 = 400000 := by
      norm_num [amountCents, truncToInt]
    have h3 : truncToInt ((5000 : ℚ) * 100) = 500000 := by
      norm_num [truncToInt]
    rw [h1, h3] at h
    simp [b2n] at h

/-- Witness for C1: in the two-line scenario `rawC1b`, selecting both lines
from supplier 1 is feasible and the constraint instance derived by the
theorem is the (true) statement `500000 ≤ 550000` cents. -/
theorem C1_min_order_amount_constraint_witness :
    truncToInt ((5000 : ℚ) * 100) ≤ sumCents enrichedC1b 1 (fun _ => true) := by
  have hfeas : feasible enrichedC1b (fun _ => true) (fun _ => true) := by
    refine ⟨by decide, by decide, ?_⟩
    intro s hs m hm hm0 hterms
    rw [show supplierIds enrichedC1b = [1] from by decide] at hs
    rcases List.mem_singleton.mp hs with rfl
    rw [show (lookupRules enrichedC1b.suppliers 1).min_order_amount
      = some 5000 from rfl] at hm
    simp only [Option.mem_def, Option.some.injEq] at hm
    subst hm
    have hsum : sumCents enrichedC1b 1 (fun _ => true)
        = amountCents 400 10 * (b2n true : ℤ)
          + (amountCents 300 5 * (b2n true : ℤ) + 0) := rfl
    rw [hsum]
    have h1 : amountCents 400 10 = 400000 := by
      norm_num [amountCents, truncToInt]
    have h2 : amountCents 300 5 = 150000 := by
      norm_num [amountCents, truncToInt]
    have h3 : truncToInt ((5000 : ℚ) * 100) = 500000 := by
      norm_num [truncToInt]
    rw [h1, h2, h3]
    simp [b2n]
  exact C1_min_order_amount_constraint.1 enrichedC1b (fun _ => true) (fun _ => true)
    hfeas 1 (by decide) 5000 rfl (by norm_num) (by decide) rfl

section StatusLemmas

/-- Characterization of the `determine_status` fold: each bucket is the
image of the items landing in the corresponding `dsItem` branch. -/
lemma dsBuckets_eq (items : List EnrichedItem) :
    dsBuckets items =
      (items.filterMap (fun it => match dsItem it with
          | Sum.inr true => some it.line_no
          | _ => none),
        items.filterMap (fun it => match dsItem it with
          | Sum.inr false => some it.line_no
          | _ => none),
        items.flatMap (fun it => match dsItem it with
          | Sum.inl es => es
          | Sum.inr _ => [])) := by
  induction items with
  | nil => rfl
  | cons it rest ih =>
    simp only [dsBuckets, ih, List.filterMap_cons, List.flatMap_cons]
    rcases h : dsItem it with es | b
    · simp [h]
    · cases b <;> simp [h]

/-- A `cannot_close` contribution of `dsItem` is never empty. -/
lemma dsItem_inl_ne_nil {it : EnrichedItem} {es : List CannotEntry}
    (h : dsItem it = Sum.inl es) : es ≠ [] := by
  unfold dsItem at h
  split_ifs at h
  · injection h with h'; subst h'; simp
  · injection h with h'; subst h'; simp
  · injection h with h'; subst h'; simp
  · injection h with h'
    subst h'
    unfold deriveLineReasons
    dsimp only
    split_ifs with hc
    · simp
    · simp only [ne_eq, List.map_eq_nil_iff]
      simpa using hc

/-- Every entry contributed by `dsItem` carries the item's line number. -/
lemma dsItem_inl_line_no {it : EnrichedItem} {es : List CannotEntry}
    (h : dsItem it = Sum.inl es) : ∀ e ∈ es, e.line_no = it.line_no := by
  unfold dsItem at h
  split_ifs at h
  · injection h with h'; subst h'; simp
  · injection h with h'; subst h'; simp
  · injection h with h'; subst h'; simp
  · injection h with h'
    subst h'
    unfold deriveLineReasons
    dsimp only
    split_ifs with hc
    · simp
    · intro e he
      rcases List.mem_map.mp he with ⟨code, _, rfl⟩
      rfl

/-- An eligible classified candidate is available (otherwise
`insufficient_quantity` would be among its rejection reasons). -/
lemma classify_eligible_available (cfg : ProcessorConfig)
    (suppliers : List (ℕ × SupplierRules)) (line_no qty : ℕ) (map : Option ℚ)
    (c : RawCandidate)
    (h : (classifyCandidate cfg suppliers line_no qty map c).1.eligible_for_solver
      = true) :
    (classifyCandidate cfg suppliers line_no qty map c).1.is_available = true := by
  have hr : (classifyCandidate cfg suppliers line_no qty map c).1.rejection_reasons
      = [] := of_decide_eq_true h
  have hav : availabilityReasons
      (is_candidate_available cfg qty c.availability_qty).1 = [] := by
    have : rejectionReasonsOf cfg (resolvedRules suppliers c) qty map c = [] := hr
    unfold rejectionReasonsOf at this
    exact (List.append_eq_nil.mp
      ((List.append_eq_nil.mp
        ((List.append_eq_nil.mp
          ((List.append_eq_nil.mp this).1)).1)).1)).1
  show (is_candidate_available cfg qty c.availability_qty).1 = true
  by_contra hb
  rw [Bool.not_eq_true] at hb
  rw [hb] at hav
  simp [availabilityReasons] at hav

/-- The classified `candidates` list is the eligible filter of
`candidates_all`, and all of its members are available. -/
lemma classifyItem_candidates_available (cfg : ProcessorConfig)
    (suppliers : List (ℕ × SupplierRules)) (it : RawItem) :
    (classifyItem cfg suppliers it).candidates.filter (fun c => c.is_available)
      = (classifyItem cfg suppliers it).candidates := by
  apply List.filter_eq_self.mpr
  intro c hc
  have hc' := List.mem_filter.mp hc
  rcases List.mem_map.mp hc'.1 with ⟨pr, hpr, rfl⟩
  rcases List.mem_map.mp hpr with ⟨rc, _, rfl⟩
  exact classify_eligible_available cfg suppliers it.line_no it.qty _ rc hc'.2

/-- Per-item agreement between the branch taken in `determine_status` and
the counter classification of `determine_order_status`, under the
invariants guaranteed by classification output. -/
lemma ds_dos_agree (it : EnrichedItem)
    (hfilt : it.candidates.filter (fun c => c.is_available) = it.candidates)
    (hgoes : it.goes_to_solver
      = decide ((it.match_status = MatchStatus.ok ∨
          it.match_status = MatchStatus.manual_override) ∧ it.candidates ≠ []))
    (hraw : it.candidates_raw_count = 0 → it.candidates = []) :
    (match dsItem it with
      | Sum.inl _ => (none : Option Bool)
      | Sum.inr b => some b) = dosItem it := by
  unfold dsItem dosItem
  cases hms : it.match_status with
  | no_match => simp
  | low_confidence => simp
  | ok =>
    by_cases h0 : it.candidates_raw_count = 0
    · have hc := hraw h0
      simp [h0, hc]
    · by_cases hcand : it.candidates = []
      · have hg : it.goes_to_solver = false := by rw [hgoes, hms]; simp [hcand]
        simp [h0, hg, hcand]
      · have hg : it.goes_to_solver = true := by rw [hgoes, hms]; simp [hcand]
        simp [h0, hg, hfilt, hcand]
  | manual_override =>
    by_cases h0 : it.candidates_raw_count = 0
    · have hc := hraw h0
      simp [h0, hc]
    · by_cases hcand : it.candidates = []
      · have hg : it.goes_to_solver = false := by rw [hgoes, hms]; simp [hcand]
        simp [h0, hg, hcand]
      · have hg : it.goes_to_solver = true := by rw [hgoes, hms]; simp [hcand]
        simp [h0, hg, hfilt, hcand]

end StatusLemmas

/-- C3: on every classified payload the independently computed order-level
status of `determine_order_status` agrees with the breakdown buckets of
`determine_status`: it is `cannot_close` iff some line landed in the
`cannot_close` bucket, else `partially_closed` iff some line landed in the
`partially_closed` bucket, else `fully_closed`. -/
theorem C3_order_status_consistent (cfg : ProcessorConfig) (raw : RawPayload) :
    (determine_status (filter_and_classify_candidates cfg raw)).1
      = (if (determine_status (filter_and_classify_candidates cfg raw)).2.cannot_close
            ≠ [] then OrderStatus.cannot_close
         else if (determine_status
              (filter_and_classify_candidates cfg raw)).2.partially_closed ≠ [] then
           OrderStatus.partially_closed
         else OrderStatus.fully_closed) := by
  set p := filter_and_classify_candidates cfg raw with hp
  have hag : ∀ it ∈ p.items,
      (match dsItem it with
        | Sum.inl _ => (none : Option Bool)
        | Sum.inr b => some b) = dosItem it := by
    intro it hit
    rw [hp] at hit
    rcases List.mem_map.mp hit with ⟨rit, _, rfl⟩
    refine ds_dos_agree _ (classifyItem_candidates_available cfg raw.suppliers rit)
      rfl ?_
    intro h0
    have hnil : rit.candidates = [] := List.length_eq_zero.mp h0
    show (classifyItem cfg raw.suppliers rit).candidates = []
    unfold classifyItem
    dsimp only
    rw [hnil]
    rfl
  have hcannot : (determine_status p).2.cannot_close
      = p.items.flatMap (fun it => match dsItem it with
          | Sum.inl es => es
          | Sum.inr _ => []) := by
    show (dsBuckets p.items).2.2 = _
    rw [dsBuckets_eq]
  have hpart : (determine_status p).2.partially_closed
      = (p.items.filterMap (fun it => match dsItem it with
          | Sum.inr false => some it.line_no
          | _ => none)).dedup := by
    show ((dsBuckets p.items).2.1).dedup = _
    rw [dsBuckets_eq]
  have hcannot_iff : (determine_status p).2.cannot_close ≠ [] ↔
      ∃ it ∈ p.items, dosItem it = none := by
    rw [hcannot]
    rw [ne_eq, List.flatMap_eq_nil_iff]
    constructor
    · intro hne
      push_neg at hne
      rcases hne with ⟨it, hit, hne⟩
      refine ⟨it, hit, ?_⟩
      rcases hd : dsItem it with es | b
      · rw [← hag it hit, hd]
      · rw [hd] at hne; simp at hne
    · rintro ⟨it, hit, hdos⟩
      intro hall
      have h := hall it hit
      rcases hd : dsItem it with es | b
      · rw [hd] at h
        exact dsItem_inl_ne_nil hd h
      · rw [← hag it hit, hd] at hdos
        simp at hdos
  have hpart_iff : (determine_status p).2.partially_closed ≠ [] ↔
      ∃ it ∈ p.items, dosItem it = some false := by
    rw [hpart, ne_eq, List.dedup_eq_nil, List.filterMap_eq_nil_iff]
    constructor
    · intro hne
      push_neg at hne
      rcases hne with ⟨it, hit, hne⟩
      refine ⟨it, hit, ?_⟩
      rcases hd : dsItem it with es | b
      · rw [hd] at hne; simp at hne
      · cases b
        · rw [← hag it hit, hd]
        · rw [hd] at hne; simp at hne
    · rintro ⟨it, hit, hdos⟩
      intro hall
      have h := hall it hit
      rw [← hag it hit] at hdos
      rcases hd : dsItem it with es | b
      · rw [hd] at hdos; simp at hdos
      · cases b
        · rw [hd] at h; simp at h
        · rw [hd] at hdos; simp at hdos
  have hA : (0 < p.items.countP (fun it => decide (dosItem it = none))) ↔
      (determine_status p).2.cannot_close ≠ [] := by
    rw [List.countP_pos_iff, hcannot_iff]
    simp
  have hB : (0 < p.items.countP (fun it => decide (dosItem it = some false))) ↔
      (determine_status p).2.partially_closed ≠ [] := by
    rw [List.countP_pos_iff, hpart_iff]
    simp
  show determine_order_status p.items = _
  unfold determine_order_status
  dsimp only
  rw [if_congr hA rfl (if_congr hB rfl rfl)]

/-- The line numbers carried by the `cannot_close` bucket. -/
def cannotLines (sd : StatusDetails) : List ℕ :=
  sd.cannot_close.map (fun e => e.line_no)

/-- In how many of the three breakdown buckets a line number appears. -/
def bucketCount (l : ℕ) (sd : StatusDetails) : ℕ :=
  (if l ∈ sd.fully_closed then 1 else 0) +
    (if l ∈ sd.partially_closed then 1 else 0) +
    (if l ∈ cannotLines sd then 1 else 0)

section BucketLemmas

lemma mem_fully_iff {p : EnrichedPayload} {l : ℕ} :
    l ∈ (determine_status p).2.fully_closed ↔
      ∃ it ∈ p.items, dsItem it = Sum.inr true ∧ it.line_no = l := by
  show l ∈ ((dsBuckets p.items).1).dedup ↔ _
  rw [dsBuckets_eq, List.mem_dedup, List.mem_filterMap]
  constructor
  · rintro ⟨it, hit, hf⟩
    rcases hd : dsItem it with es | b
    · rw [hd] at hf; cases hf
    · cases b
      · rw [hd] at hf; cases hf
      · rw [hd] at hf
        exact ⟨it, hit, hd, by injection hf⟩
  · rintro ⟨it, hit, hd, hl⟩
    exact ⟨it, hit, by rw [hd, hl]⟩

lemma mem_partially_iff {p : EnrichedPayload} {l : ℕ} :
    l ∈ (determine_status p).2.partially_closed ↔
      ∃ it ∈ p.items, dsItem it = Sum.inr false ∧ it.line_no = l := by
  show l ∈ ((dsBuckets p.items).2.1).dedup ↔ _
  rw [dsBuckets_eq, List.mem_dedup, List.mem_filterMap]
  constructor
  · rintro ⟨it, hit, hf⟩
    rcases hd : dsItem it with es | b
    · rw [hd] at hf; cases hf
    · cases b
      · rw [hd] at hf
        exact ⟨it, hit, hd, by injection hf⟩
      · rw [hd] at hf; cases hf
  · rintro ⟨it, hit, hd, hl⟩
    exact ⟨it, hit, by rw [hd, hl]⟩

lemma mem_cannotLines_iff {p : EnrichedPayload} {l : ℕ} :
    l ∈ cannotLines (determine_status p).2 ↔
      ∃ it ∈ p.items, (∃ es, dsItem it = Sum.inl es) ∧ it.line_no = l := by
  show l ∈ ((dsBuckets p.items).2.2).map (fun e => e.line_no) ↔ _
  rw [dsBuckets_eq, List.mem_map]
  constructor
  · rintro ⟨e, he, hl⟩
    rcases List.mem_flatMap.mp he with ⟨it, hit, hin⟩
    rcases hd : dsItem it with es | b
    · rw [hd] at hin
      refine ⟨it, hit, ⟨es, hd⟩, ?_⟩
      rw [← hl, dsItem_inl_line_no hd e hin]
    · rw [hd] at hin; cases hin
  · rintro ⟨it, hit, ⟨es, hd⟩, hl⟩
    rcases List.exists_mem_of_ne_nil es (dsItem_inl_ne_nil hd) with ⟨e, he⟩
    refine ⟨e, List.mem_flatMap.mpr ⟨it, hit, by rw [hd]; exact he⟩, ?_⟩
    rw [dsItem_inl_line_no hd e he, hl]

end BucketLemmas

/-- The payload whose only line has a candidate rejected for two distinct
reasons (blacklisted supplier and policy filters). -/
def rawC8 : RawPayload :=
  { order_id := 1
    items := [{ line_no := 1, qty := 1, match_status := MatchStatus.ok,
                candidates := [{ supplier_id := 1, policy_filters := ["no_b2c"] }] }]
    suppliers := [(1, { blacklisted := true })] }

/-- C8 counterexample: already in the initial breakdown (no solver run, no
demotion) line 1 carries two `cannot_close` entries, one per rejection
reason code, refuting "multiple entries only if recomputed after model
demotion". -/
theorem C8_counterexample :
    ((determine_status (filter_and_classify_candidates {} rawC8)).2.cannot_close.map
        (fun e => (e.line_no, e.reason)))
      = [(1, "supplier_blacklisted"), (1, "filtered_out_by_policy")] := by
  decide

/-- C8 (amended): every line appears in exactly one of the three breakdown
buckets, both in the initial breakdown and after the infeasibility
demotion (which removes the impacted lines from the other buckets while
appending their shortfall entries to `cannot_close`); a line may carry
several `cannot_close` entries already in the initial breakdown — one per
distinct rejection reason code on its candidates — as well as after
demotion. -/
theorem C8_exactly_one_bucket (p : EnrichedPayload)
    (hnd : (p.items.map (fun it => it.line_no)).Nodup) :
    ∀ it ∈ p.items,
      bucketCount it.line_no (determine_status p).2 = 1 ∧
        bucketCount it.line_no
          (applyShortfalls (determine_status p).2
            (calculate_min_order_shortfalls p)) = 1 := by
  intro it hit
  have huniq : ∀ it' ∈ p.items, it'.line_no = it.line_no → it' = it := by
    intro it' hit' h
    exact List.inj_on_of_nodup_map hnd hit' hit h
  have hfully : it.line_no ∈ (determine_status p).2.fully_closed ↔
      dsItem it = Sum.inr true := by
    rw [mem_fully_iff]
    constructor
    · rintro ⟨it', hit', hd, hl⟩
      rw [← huniq it' hit' hl]; exact hd
    · intro hd; exact ⟨it, hit, hd, rfl⟩
  have hpartially : it.line_no ∈ (determine_status p).2.partially_closed ↔
      dsItem it = Sum.inr false := by
    rw [mem_partially_iff]
    constructor
    · rintro ⟨it', hit', hd, hl⟩
      rw [← huniq it' hit' hl]; exact hd
    · intro hd; exact ⟨it, hit, hd, rfl⟩
  have hcannot : it.line_no ∈ cannotLines (determine_status p).2 ↔
      ∃ es, dsItem it = Sum.inl es := by
    rw [mem_cannotLines_iff]
    constructor
    · rintro ⟨it', hit', hd, hl⟩
      rw [← huniq it' hit' hl]; exact hd
    · intro hd; exact ⟨it, hit, hd, rfl⟩
  have hinit : bucketCount it.line_no (determine_status p).2 = 1 := by
    unfold bucketCount
    rcases hd : dsItem it with es | b
    · rw [if_neg, if_neg, if_pos (hcannot.mpr ⟨es, hd⟩)]
      · rw [hpartially, hd]; simp
      · rw [hfully, hd]; simp
    · cases b
      · rw [if_neg, if_pos (hpartially.mpr hd), if_neg]
        · rw [hcannot, hd]; simp
        · rw [hfully, hd]; simp
      · rw [if_pos (hfully.mpr hd), if_neg, if_neg]
        · rw [hcannot, hd]; simp
        · rw [hpartially, hd]; simp
  refine ⟨hinit, ?_⟩
  unfold applyShortfalls
  split_ifs with hsh
  · exact hinit
  · set sd := (determine_status p).2
    set sh := calculate_min_order_shortfalls p
    set impacted := sh.map (fun e => e.line_no) with himp
    by_cases hli : it.line_no ∈ impacted
    · unfold bucketCount
      rw [if_neg, if_neg, if_pos]
      · show it.line_no ∈ (refreshCounts _).cannot_close.map (fun e => e.line_no)
        show it.line_no ∈ (sd.cannot_close ++ sh).map (fun e => e.line_no)
        rw [List.map_append, List.mem_append]
        exact Or.inr hli
      · show ¬ it.line_no ∈ sd.partially_closed.filter (fun l => l ∉ impacted)
        intro hmem
        have := List.mem_filter.mp hmem
        simp only [decide_not, Bool.not_eq_true', decide_eq_false_iff_not] at this
        exact this.2 hli
      · show ¬ it.line_no ∈ sd.fully_closed.filter (fun l => l ∉ impacted)
        intro hmem
        have := List.mem_filter.mp hmem
        simp only [decide_not, Bool.not_eq_true', decide_eq_false_iff_not] at this
        exact this.2 hli
    · have h1 : (it.line_no ∈ sd.fully_closed.filter (fun l => l ∉ impacted)) ↔
          it.line_no ∈ sd.fully_closed := by
        rw [List.mem_filter]
        simp only [decide_not, Bool.not_eq_true', decide_eq_false_iff_not]
        exact ⟨fun h => h.1, fun h => ⟨h, hli⟩⟩
      have h2 : (it.line_no ∈ sd.partially_closed.filter (fun l => l ∉ impacted)) ↔
          it.line_no ∈ sd.partially_closed := by
        rw [List.mem_filter]
        simp only [decide_not, Bool.not_eq_true', decide_eq_false_iff_not]
        exact ⟨fun h => h.1, fun h => ⟨h, hli⟩⟩
      have h3 : (it.line_no ∈ (sd.cannot_close ++ sh).map (fun e => e.line_no)) ↔
          it.line_no ∈ cannotLines sd := by
        rw [List.map_append, List.mem_append]
        exact ⟨fun h => h.elim id (fun h' => absurd h' hli), Or.inl⟩
      show (if it.line_no ∈ sd.fully_closed.filter (fun l => l ∉ impacted) then 1
          else 0) +
          (if it.line_no ∈ sd.partially_closed.filter (fun l => l ∉ impacted) then 1
            else 0) +
          (if it.line_no ∈ (sd.cannot_close ++ sh).map (fun e => e.line_no) then 1
            else 0) = 1
      rw [if_congr h1 rfl rfl, if_congr h2 rfl rfl, if_congr h3 rfl rfl]
      exact hinit

/-- The enriched payload of the C8 counterexample scenario. -/
def enrichedC8 : EnrichedPayload := filter_and_classify_candidates {} rawC8

/-- The single enriched item of the C8 scenario. -/
def itemC8 : EnrichedItem :=
  classifyItem {} rawC8.suppliers
    { line_no := 1, qty := 1, match_status := MatchStatus.ok,
      candidates := [{ supplier_id := 1, policy_filters := ["no_b2c"] }] }

/-- Witness for C8: on the concrete `rawC8` payload the line appears in
exactly one bucket, before and after the demotion step. -/
theorem C8_exactly_one_bucket_witness :
    bucketCount itemC8.line_no (determine_status enrichedC8).2 = 1 ∧
      bucketCount itemC8.line_no
        (applyShortfalls (determine_status enrichedC8).2
          (calculate_min_order_shortfalls enrichedC8)) = 1 :=
  C8_exactly_one_bucket enrichedC8 (by decide) itemC8 (by decide)

/-- Invariant of the shortfall accumulation after consuming the annotation
stream `seen`: the keys are distinct; every stored entry comes from a seen
annotation of its key whose delta is minimal among all seen annotations of
that key; and every seen annotation's key is stored. -/
def shortInv (seen : List (ℕ × ℕ × MoaDetails))
    (acc : List ((ℕ × ℕ) × CannotEntry)) : Prop :=
  (acc.map Prod.fst).Nodup ∧
  (∀ ke ∈ acc, ∃ a ∈ seen, shortKey a = ke.1 ∧ ke.2 = shortEntry a ∧
    ∀ a' ∈ seen, shortKey a' = ke.1 →
      a.2.2.delta_amount ≤ a'.2.2.delta_amount) ∧
  (∀ a ∈ seen, shortKey a ∈ acc.map Prod.fst)

section ShortfallLemmas

lemma insertShortfall_inv {seen : List (ℕ × ℕ × MoaDetails)}
    {acc : List ((ℕ × ℕ) × CannotEntry)} (a : ℕ × ℕ × MoaDetails)
    (h : shortInv seen acc) : shortInv (seen ++ [a]) (insertShortfall acc a) := by
  obtain ⟨hnd, hent, hcomp⟩ := h
  unfold insertShortfall
  by_cases hfind : (acc.find? (fun e => e.1 = shortKey a)).isSome
  · rw [if_pos hfind]
    have hg1 : ∀ e : (ℕ × ℕ) × CannotEntry,
        ((if e.1 = shortKey a ∧ a.2.2.delta_amount < storedDelta a e then
          (shortKey a, shortEntry a) else e)).1 = e.1 := by
      intro e
      split_ifs with hcond
      · exact hcond.1.symm
      · rfl
    have hkeys : (acc.map (fun e =>
        if e.1 = shortKey a ∧ a.2.2.delta_amount < storedDelta a e then
          (shortKey a, shortEntry a) else e)).map Prod.fst = acc.map Prod.fst := by
      rw [List.map_map]
      exact List.map_congr_left (fun e _ => hg1 e)
    refine ⟨by rw [hkeys]; exact hnd, ?_, ?_⟩
    · intro ke hke
      rcases List.mem_map.mp hke with ⟨e, he, rfl⟩
      rcases hent e he with ⟨a₀, ha₀, hk₀, he₀, hmin₀⟩
      have hstored : storedDelta a e = a₀.2.2.delta_amount := by
        unfold storedDelta
        rw [he₀]
        rfl
      by_cases hcond : e.1 = shortKey a ∧ a.2.2.delta_amount < storedDelta a e
      · rw [if_pos hcond]
        refine ⟨a, List.mem_append_right _ (List.mem_singleton.mpr rfl), rfl, rfl, ?_⟩
        intro a' ha' hk'
        rcases List.mem_append.mp ha' with ha' | ha'
        · have h1 : a₀.2.2.delta_amount ≤ a'.2.2.delta_amount := by
            refine hmin₀ a' ha' ?_
            rw [hk', hcond.1]
          rw [hstored] at hcond
          exact le_of_lt (lt_of_lt_of_le hcond.2 h1)
        · have heq := List.mem_singleton.mp ha'
          rw [heq]
      · rw [if_neg hcond]
        refine ⟨a₀, List.mem_append_left _ ha₀, hk₀, he₀, ?_⟩
        intro a' ha' hk'
        rcases List.mem_append.mp ha' with ha' | ha'
        · exact hmin₀ a' ha' hk'
        · have heq := List.mem_singleton.mp ha'
          rw [heq] at hk' ⊢
          have hnlt : ¬ a.2.2.delta_amount < storedDelta a e :=
            fun hlt => hcond ⟨hk'.symm, hlt⟩
          rw [hstored] at hnlt
          exact le_of_not_lt hnlt
    · intro a' ha'
      rw [hkeys]
      rcases List.mem_append.mp ha' with ha' | ha'
      · exact hcomp a' ha'
      · have heq := List.mem_singleton.mp ha'
        rw [heq]
        rcases Option.isSome_iff_exists.mp hfind with ⟨e0, he0⟩
        have hp := List.find?_some he0
        exact List.mem_map.mpr ⟨e0, List.mem_of_find?_eq_some he0,
          by simpa using hp⟩
  · rw [if_neg hfind]
    have hnotin : shortKey a ∉ acc.map Prod.fst := by
      intro hmem
      rcases List.mem_map.mp hmem with ⟨e, he, hke⟩
      rw [Option.not_isSome_iff_eq_none] at hfind
      have := List.find?_eq_none.mp hfind e he
      simp [hke] at this
    refine ⟨?_, ?_, ?_⟩
    · rw [List.map_append, List.nodup_append]
      refine ⟨hnd, List.nodup_singleton _, ?_⟩
      intro x hx hx'
      rcases List.mem_singleton.mp hx' with rfl
      exact hnotin hx
    · intro ke hke
      rcases List.mem_append.mp hke with hke | hke
      · rcases hent ke hke with ⟨a₀, ha₀, hk₀, he₀, hmin₀⟩
        refine ⟨a₀, List.mem_append_left _ ha₀, hk₀, he₀, ?_⟩
        intro a' ha' hk'
        rcases List.mem_append.mp ha' with ha' | ha'
        · exact hmin₀ a' ha' hk'
        · have heq := List.mem_singleton.mp ha'
          rw [heq] at hk'
          exact absurd (hk' ▸ List.mem_map.mpr ⟨ke, hke, rfl⟩) hnotin
      · rcases List.mem_singleton.mp hke with rfl
        refine ⟨a, List.mem_append_right _ (List.mem_singleton.mpr rfl), rfl, rfl, ?_⟩
        intro a' ha' hk'
        rcases List.mem_append.mp ha' with ha' | ha'
        · have hk'' : shortKey a' = shortKey a := hk'
          exact absurd (hk'' ▸ hcomp a' ha') hnotin
        · have heq := List.mem_singleton.mp ha'
          rw [heq]
    · intro a' ha'
      rw [List.map_append]
      rcases List.mem_append.mp ha' with ha' | ha'
      · exact List.mem_append_left _ (hcomp a' ha')
      · have heq := List.mem_singleton.mp ha'
        rw [heq]
        exact List.mem_append_right _ (by simp)

lemma foldl_insertShortfall_inv (anns : List (ℕ × ℕ × MoaDetails)) :
    ∀ (seen : List (ℕ × ℕ × MoaDetails)) (acc : List ((ℕ × ℕ) × CannotEntry)),
      shortInv seen acc → shortInv (seen ++ anns) (anns.foldl insertShortfall acc) := by
  induction anns with
  | nil => intro seen acc h; simpa using h
  | cons a rest ih =>
    intro seen acc h
    have h' := ih (seen ++ [a]) (insertShortfall acc a) (insertShortfall_inv a h)
    simpa [List.append_assoc] using h'

/-- The shortfall accumulation satisfies its invariant over the whole
annotation stream. -/
lemma shortInv_full (p : EnrichedPayload) :
    shortInv (moaAnnotations p) ((moaAnnotations p).foldl insertShortfall []) := by
  have h := foldl_insertShortfall_inv (moaAnnotations p) [] []
    ⟨List.nodup_nil, by simp, by simp⟩
  simpa using h

end ShortfallLemmas

/-- C5 (amended): on solver failure the reconciliation keeps, for every
`(line, supplier)` pair carrying min-order-amount risk annotations — not
per line — exactly one shortfall entry, the one with the smallest
`delta_amount` for that pair; it removes the impacted lines from the
`fully_closed` and `partially_closed` buckets, appends the shortfall
entries to `cannot_close` with reason `min_order_amount_not_met`,
recomputes the bucket counts and forces the order status to
`cannot_close`. -/
theorem C5_reconciliation (p : EnrichedPayload) (sd : StatusDetails)
    (sh : List CannotEntry) (hsh : sh ≠ []) :
    ((((moaAnnotations p).foldl insertShortfall []).map Prod.fst).Nodup) ∧
    calculate_min_order_shortfalls p
      = ((moaAnnotations p).foldl insertShortfall []).map (fun e => e.2) ∧
    (∀ ke ∈ (moaAnnotations p).foldl insertShortfall [],
      ∃ a ∈ moaAnnotations p, shortKey a = ke.1 ∧ ke.2 = shortEntry a ∧
        ∀ a' ∈ moaAnnotations p, shortKey a' = ke.1 →
          a.2.2.delta_amount ≤ a'.2.2.delta_amount) ∧
    (∀ a ∈ moaAnnotations p,
      shortKey a ∈ ((moaAnnotations p).foldl insertShortfall []).map Prod.fst) ∧
    (applyShortfalls sd sh).order_status = OrderStatus.cannot_close ∧
    (applyShortfalls sd sh).fully_closed
      = sd.fully_closed.filter (fun l => l ∉ sh.map (fun e => e.line_no)) ∧
    (applyShortfalls sd sh).partially_closed
      = sd.partially_closed.filter (fun l => l ∉ sh.map (fun e => e.line_no)) ∧
    (applyShortfalls sd sh).cannot_close = sd.cannot_close ++ sh ∧
    (applyShortfalls sd sh).counts_cannot
      = (((sd.cannot_close ++ sh).map (fun e => e.line_no)).dedup).length := by
  obtain ⟨h1, h2, h3⟩ := shortInv_full p
  have hne : ¬ sh.isEmpty = true := by simpa using hsh
  refine ⟨h1, rfl, h2, h3, ?_, ?_, ?_, ?_, ?_⟩ <;>
    (unfold applyShortfalls; rw [if_neg hne])
  · rfl
  · rfl
  · rfl
  · rfl
  · rfl

/-- A classified candidate literal carrying a min-order-amount annotation,
for the C5 counterexample. -/
def candMoaC5 (sid : ℕ) (req delta : ℚ) : EnrichedCandidate :=
  { supplier_id := sid, price := some 1, availability_qty := none,
    pack_code := none, pack_match_status := none, is_available := true,
    sufficient_qty := true, shortage_pct := none, line_total := some 1,
    min_order_amount_risk := true,
    min_order_amount_details := some
      { supplier_id := sid, required_amount := req, actual_amount := 1,
        delta_amount := delta, suggested_qty_increase := none },
    eligible_for_solver := true, rejected_reason := none,
    rejection_reasons := [] }

/-- Enriched payload whose single line carries min-order-amount risk
annotations from two different suppliers (deltas 4 and 3). -/
def enrichedC5 : EnrichedPayload :=
  { order_id := 1
    items := [{ line_no := 1, qty := 1, match_status := MatchStatus.ok,
                match_score := none, candidates_raw_count := 2,
                candidates := [candMoaC5 1 5 4, candMoaC5 2 4 3],
                candidates_all := [candMoaC5 1 5 4, candMoaC5 2 4 3],
                max_allowed_price := none, min_order_amount_risks := [],
                goes_to_solver := true }]
    suppliers := [] }

/-- C5 counterexample: a line with risk annotations from two suppliers
keeps one shortfall entry per supplier — two entries for the line — not
only the smallest-delta entry per line as the claim states. -/
theorem C5_counterexample :
    (calculate_min_order_shortfalls enrichedC5).countP (fun e => e.line_no = 1)
      = 2 := by
  decide

/-- A status-details literal for the C5 witness. -/
def sdC5 : StatusDetails :=
  { order_status := OrderStatus.fully_closed, fully_closed := [1],
    partially_closed := [], cannot_close := [], counts_fully := 1,
    counts_partially := 0, counts_cannot := 0 }

/-- Witness for C5: applying the reconciliation to the concrete scenario
forces the order status to `cannot_close` and appends the shortfall
entries to the `cannot_close` bucket. -/
theorem C5_reconciliation_witness :
    (applyShortfalls sdC5 (calculate_min_order_shortfalls enrichedC5)).order_status
        = OrderStatus.cannot_close ∧
      (applyShortfalls sdC5 (calculate_min_order_shortfalls enrichedC5)).cannot_close
        = sdC5.cannot_close ++ calculate_min_order_shortfalls enrichedC5 :=
  have h := C5_reconciliation enrichedC5 sdC5
    (calculate_min_order_shortfalls enrichedC5) (by decide)
  ⟨h.2.2.2.2.1, h.2.2.2.2.2.2.2.1⟩

/-- Number of selected candidates under an assignment. -/
def selectedCount (p : EnrichedPayload) (x : ℕ → Bool) : ℕ :=
  ((allCandidates p).map (fun c => b2n (x c.idx))).sum

section ObjectiveLemmas

lemma buildItemCands_sum (x : ℕ → Bool) (ii ln q : ℕ) :
    ∀ (cands : List EnrichedCandidate) (st : ℕ),
      ((buildItemCands ii ln q st cands).1.map (fun c => b2n (x c.idx))).sum
        = (buildItemCands ii ln q st cands).2.countP x := by
  intro cands
  induction cands with
  | nil => intro st; rfl
  | cons c cs ih =>
    intro st
    simp only [buildItemCands, List.map_cons, List.sum_cons, List.countP_cons, ih]
    cases hxs : x st <;> simp [b2n, hxs] <;> omega

lemma buildFlat_sum (x : ℕ → Bool) :
    ∀ (items : List EnrichedItem) (ii st : ℕ),
      ((buildFlat ii st items).1.map (fun c => b2n (x c.idx))).sum
        = ((buildFlat ii st items).2.map (fun idxs => idxs.countP x)).sum := by
  intro items
  induction items with
  | nil => intro ii st; rfl
  | cons it rest ih =>
    intro ii st
    show ((((buildItemCands ii it.line_no it.qty st it.candidates).1
        ++ (buildFlat (ii + 1) (st + it.candidates.length) rest).1).map
          (fun c => b2n (x c.idx))).sum) = _
    rw [List.map_append, List.sum_append, buildItemCands_sum, ih]
    rfl

lemma buildFlat_len :
    ∀ (items : List EnrichedItem) (ii st : ℕ),
      (buildFlat ii st items).2.length = items.length := by
  intro items
  induction items with
  | nil => intro ii st; rfl
  | cons it rest ih =>
    intro ii st
    show ((buildItemCands ii it.line_no it.qty st it.candidates).2
        :: (buildFlat (ii + 1) (st + it.candidates.length) rest).2).length = _
    rw [List.length_cons, ih, List.length_cons]

lemma sum_map_one {α : Type} (l : List α) : (l.map (fun _ => (1 : ℕ))).sum = l.length := by
  induction l with
  | nil => rfl
  | cons a t ih => simp [ih]; omega

/-- The container penalty sum never exceeds the number of selected
candidates. -/
lemma penaltySum_le_selectedCount (p : EnrichedPayload) (x : ℕ → Bool) :
    penaltySum p x ≤ selectedCount p x := by
  unfold penaltySum selectedCount
  apply List.sum_le_sum
  intro c _
  split_ifs
  · rw [one_mul]
  · rw [zero_mul]
    exact Nat.zero_le _

/-- Under the exactly-one constraints, the number of selected candidates is
the number of solver items. -/
lemma selectedCount_eq {p : EnrichedPayload} {x : ℕ → Bool}
    (hex : exactlyOne p x) : selectedCount p x = (solverItems p).length := by
  unfold selectedCount allCandidates
  rw [buildFlat_sum]
  have h1 : ((buildFlat 0 0 (solverItems p)).2.map (fun idxs => idxs.countP x))
      = (buildFlat 0 0 (solverItems p)).2.map (fun _ => 1) :=
    List.map_congr_left (fun idxs h => hex idxs h)
  rw [h1, sum_map_one, buildFlat_len]

end ObjectiveLemmas

/-- C6 (amended): in `container_match` mode the supplier-count term
dominates whenever the model's maximum possible container-penalty sum —
bounded by the number of solver items — is below the hard-coded weight
1000: for instances with fewer than 1000 solver items, of two feasible
assignments the one using fewer suppliers has the strictly smaller
objective.  (For instances with 1000 or more solver items the preference
is not strictly lexicographic.) -/
theorem C6_container_match_lexicographic (cfg : ProcessorConfig)
    (p : EnrichedPayload) (x₁ y₁ x₂ y₂ : ℕ → Bool)
    (hcfg : cfg.optimization_priority = OptPriority.container_match)
    (h1 : feasible p x₁ y₁) (h2 : feasible p x₂ y₂)
    (hsz : (solverItems p).length < 1000)
    (hlt : suppliersUsedCount p y₁ < suppliersUsedCount p y₂) :
    objective cfg p x₁ y₁ < objective cfg p x₂ y₂ := by
  have hP : penaltySum p x₁ ≤ (solverItems p).length := by
    calc penaltySum p x₁ ≤ selectedCount p x₁ := penaltySum_le_selectedCount p x₁
    _ = (solverItems p).length := selectedCount_eq h1.1
  unfold objective
  rw [hcfg]
  show suppliersUsedCount p y₁ * 1000 + penaltySum p x₁
    < suppliersUsedCount p y₂ * 1000 + penaltySum p x₂
  omega

/-- An eligible candidate with an `"alike"` pack match, supplier 1. -/
def alikeCandC6 : EnrichedCandidate :=
  { supplier_id := 1, price := none, availability_qty := none, pack_code := none,
    pack_match_status := some "alike", is_available := true, sufficient_qty := true,
    shortage_pct := none, line_total := none, min_order_amount_risk := false,
    min_order_amount_details := none, eligible_for_solver := true,
    rejected_reason := none, rejection_reasons := [] }

/-- An eligible candidate with an exact pack match from supplier `s`. -/
def exactCandC6 (s : ℕ) : EnrichedCandidate :=
  { alikeCandC6 with supplier_id := s, pack_match_status := some "exactly" }

/-- Line `i` of the C6 family: an `"alike"` offer from supplier 1 and an
exact offer from supplier 2 (even lines) or 3 (odd lines). -/
def itemC6 (i : ℕ) : EnrichedItem :=
  { line_no := i, qty := 1, match_status := MatchStatus.ok, match_score := none,
    candidates_raw_count := 2,
    candidates := [alikeCandC6, exactCandC6 (2 + i % 2)],
    candidates_all := [alikeCandC6, exactCandC6 (2 + i % 2)],
    max_allowed_price := none, min_order_amount_risks := [],
    goes_to_solver := true }

/-- The C6 counterexample payload: 1000 solver lines of the family. -/
def enrichedC6 : EnrichedPayload :=
  { order_id := 1, items := (List.range' 0 1000).map itemC6, suppliers := [] }

/-- Configuration running the `container_match` optimization mode. -/
def cfgC6 : ProcessorConfig := { optimization_priority := OptPriority.container_match }

/-- Assignment A: every line takes its `"alike"` offer (even flat indices);
only supplier 1 is used. -/
def xC6A : ℕ → Bool := fun i => i % 2 == 0

/-- Supplier selection of assignment A. -/
def yC6A : ℕ → Bool := fun s => s == 1

/-- Assignment B: every line takes its exact offer (odd flat indices);
suppliers 2 and 3 are used. -/
def xC6B : ℕ → Bool := fun i => i % 2 == 1

/-- Supplier selection of assignment B. -/
def yC6B : ℕ → Bool := fun s => s == 2 || s == 3

section C6Family

/-- One unfolding step of the flattening over the C6 item family. -/
lemma buildFlat_C6_step (a k ii st : ℕ) :
    buildFlat ii st ((List.range' a (k + 1)).map itemC6)
      = ({ idx := st, itemIdx := ii, line_no := a, qty := 1, supplier_id := 1,
            pack_match_status := some "alike", price := none } ::
          { idx := st + 1, itemIdx := ii, line_no := a, qty := 1,
            supplier_id := 2 + a % 2, pack_match_status := some "exactly",
            price := none } ::
            (buildFlat (ii + 1) (st + 2) ((List.range' (a + 1) k).map itemC6)).1,
         [st, st + 1] ::
            (buildFlat (ii + 1) (st + 2) ((List.range' (a + 1) k).map itemC6)).2) := by
  rw [List.range'_succ, List.map_cons]
  rfl

lemma buildFlat_C6_map2 :
    ∀ (n a ii st : ℕ),
      ∀ idxs ∈ (buildFlat ii st ((List.range' a n).map itemC6)).2,
        ∃ m, idxs = [m, m + 1] := by
  intro n
  induction n with
  | zero => intro a ii st idxs h; cases h
  | succ k ih =>
    intro a ii st idxs h
    rw [buildFlat_C6_step] at h
    rcases List.mem_cons.mp h with h | h
    · exact ⟨st, by rw [h]⟩
    · exact ih (a + 1) (ii + 1) (st + 2) idxs h

lemma buildFlat_C6_mem :
    ∀ (n a ii st : ℕ), st % 2 = 0 →
      ∀ c ∈ (buildFlat ii st ((List.range' a n).map itemC6)).1,
        (c.idx % 2 = 0 → c.supplier_id = 1 ∧ c.pack_match_status = some "alike") ∧
        (c.idx % 2 = 1 →
          (c.supplier_id = 2 ∨ c.supplier_id = 3) ∧
            c.pack_match_status = some "exactly") := by
  intro n
  induction n with
  | zero => intro a ii st _ c h; cases h
  | succ k ih =>
    intro a ii st hst c h
    rw [buildFlat_C6_step] at h
    rcases List.mem_cons.mp h with rfl | h
    · refine ⟨fun _ => ⟨rfl, rfl⟩, fun hodd => ?_⟩
      simp only at hodd
      omega
    · rcases List.mem_cons.mp h with rfl | h
      · refine ⟨fun heven => ?_, fun _ => ⟨?_, rfl⟩⟩
        · exfalso
          simp only at heven
          omega
        · show 2 + a % 2 = 2 ∨ 2 + a % 2 = 3
          omega
      · exact ih (a + 1) (ii + 1) (st + 2) (by omega) c h

lemma buildFlat_C6_penaltyA :
    ∀ (n a ii st : ℕ), st % 2 = 0 →
      (((buildFlat ii st ((List.range' a n).map itemC6)).1).map
        (fun c => (if c.pack_match_status = some "alike" then 1 else 0)
          * b2n (xC6A c.idx))).sum = n := by
  intro n
  induction n with
  | zero => intro a ii st _; rfl
  | succ k ih =>
    intro a ii st hst
    rw [buildFlat_C6_step]
    rw [List.map_cons, List.map_cons, List.sum_cons, List.sum_cons,
      ih (a + 1) (ii + 1) (st + 2) (by omega)]
    have hxa : xC6A st = true := by
      unfold xC6A
      simp [hst]
    have hxb : xC6A (st + 1) = false := by
      unfold xC6A
      simp
      omega
    rw [hxa, hxb]
    simp [b2n]
    omega

lemma buildFlat_C6_penaltyB :
    ∀ (n a ii st : ℕ), st % 2 = 0 →
      (((buildFlat ii st ((List.range' a n).map itemC6)).1).map
        (fun c => (if c.pack_match_status = some "alike" then 1 else 0)
          * b2n (xC6B c.idx))).sum = 0 := by
  intro n
  induction n with
  | zero => intro a ii st _; rfl
  | succ k ih =>
    intro a ii st hst
    rw [buildFlat_C6_step]
    rw [List.map_cons, List.map_cons, List.sum_cons, List.sum_cons,
      ih (a + 1) (ii + 1) (st + 2) (by omega)]
    have hxa : xC6B st = false := by
      unfold xC6B
      simp
      omega
    rw [hxa]
    simp [b2n]

lemma solverItems_C6 : solverItems enrichedC6 = (List.range' 0 1000).map itemC6 := by
  unfold solverItems enrichedC6
  apply List.filter_eq_self.mpr
  intro it hit
  rcases List.mem_map.mp hit with ⟨i, _, rfl⟩
  rfl

lemma exactlyOne_C6A : exactlyOne enrichedC6 xC6A := by
  intro idxs h
  have h' : idxs ∈ (buildFlat 0 0 ((List.range' 0 1000).map itemC6)).2 := by
    rw [← solverItems_C6]; exact h
  rcases buildFlat_C6_map2 1000 0 0 0 idxs h' with ⟨m, rfl⟩
  rw [List.countP_cons, List.countP_cons, List.countP_nil]
  unfold xC6A
  simp only [beq_iff_eq]
  split_ifs <;> omega

lemma exactlyOne_C6B : exactlyOne enrichedC6 xC6B := by
  intro idxs h
  have h' : idxs ∈ (buildFlat 0 0 ((List.range' 0 1000).map itemC6)).2 := by
    rw [← solverItems_C6]; exact h
  rcases buildFlat_C6_map2 1000 0 0 0 idxs h' with ⟨m, rfl⟩
  rw [List.countP_cons, List.countP_cons, List.countP_nil]
  unfold xC6B
  simp only [beq_iff_eq]
  split_ifs <;> omega

lemma linking_C6A : linking enrichedC6 xC6A yC6A := by
  intro c hc hx
  have hc' : c ∈ (buildFlat 0 0 ((List.range' 0 1000).map itemC6)).1 := by
    rw [← solverItems_C6]; exact hc
  have hm := buildFlat_C6_mem 1000 0 0 0 rfl c hc'
  have heven : c.idx % 2 = 0 := by
    unfold xC6A at hx
    simpa using hx
  rw [(hm.1 heven).1]
  rfl

lemma linking_C6B : linking enrichedC6 xC6B yC6B := by
  intro c hc hx
  have hc' : c ∈ (buildFlat 0 0 ((List.range' 0 1000).map itemC6)).1 := by
    rw [← solverItems_C6]; exact hc
  have hm := buildFlat_C6_mem 1000 0 0 0 rfl c hc'
  have hodd : c.idx % 2 = 1 := by
    unfold xC6B at hx
    simpa using hx
  rcases (hm.2 hodd).1 with h | h <;> rw [h] <;> rfl

/-- A payload without suppliers has no minimum-order-amount constraints. -/
lemma moa_no_suppliers (p : EnrichedPayload) (hsup : p.suppliers = [])
    (x y : ℕ → Bool) : moaConstraints p x y := by
  intro s _ m hm
  rw [hsup] at hm
  simp [lookupRules] at hm

/-- The first four flattened candidates of the C6 instance. -/
def scC6a : SolverCand := ⟨0, 0, 0, 1, 1, some "alike", none⟩

/-- Second flattened candidate of the C6 instance (exact offer, supplier 2). -/
def scC6b : SolverCand := ⟨1, 0, 0, 1, 2, some "exactly", none⟩

/-- Third flattened candidate of the C6 instance. -/
def scC6c : SolverCand := ⟨2, 1, 1, 1, 1, some "alike", none⟩

/-- Fourth flattened candidate of the C6 instance (exact offer, supplier 3). -/
def scC6d : SolverCand := ⟨3, 1, 1, 1, 3, some "exactly", none⟩

lemma allCandidates_C6_head : allCandidates enrichedC6
    = scC6a :: scC6b :: scC6c :: scC6d ::
      (buildFlat 2 4 ((List.range' 2 998).map itemC6)).1 := by
  show (buildFlat 0 0 (solverItems enrichedC6)).1 = _
  rw [solverItems_C6, show (1000 : ℕ) = 999 + 1 from rfl, buildFlat_C6_step,
    show (999 : ℕ) = 998 + 1 from rfl, buildFlat_C6_step]
  rfl

lemma supplierIds_C6_mem (s : ℕ) :
    s ∈ supplierIds enrichedC6 ↔ (s = 1 ∨ s = 2 ∨ s = 3) := by
  unfold supplierIds
  rw [List.mem_dedup, List.mem_map]
  constructor
  · rintro ⟨c, hc, rfl⟩
    have hc' : c ∈ (buildFlat 0 0 ((List.range' 0 1000).map itemC6)).1 := by
      rw [← solverItems_C6]; exact hc
    have hm := buildFlat_C6_mem 1000 0 0 0 rfl c hc'
    rcases Nat.mod_two_eq_zero_or_one c.idx with h | h
    · exact Or.inl (hm.1 h).1
    · rcases (hm.2 h).1 with h' | h'
      · exact Or.inr (Or.inl h')
      · exact Or.inr (Or.inr h')
  · intro hs
    rcases hs with rfl | rfl | rfl
    · refine ⟨scC6a, ?_, rfl⟩
      rw [allCandidates_C6_head]
      exact List.mem_cons_self _ _
    · refine ⟨scC6b, ?_, rfl⟩
      rw [allCandidates_C6_head]
      exact List.mem_cons_of_mem _ (List.mem_cons_self _ _)
    · refine ⟨scC6d, ?_, rfl⟩
      rw [allCandidates_C6_head]
      exact List.mem_cons_of_mem _ (List.mem_cons_of_mem _
        (List.mem_cons_of_mem _ (List.mem_cons_self _ _)))

lemma supplierIds_C6_nodup : (supplierIds enrichedC6).Nodup := by
  unfold supplierIds
  exact List.nodup_dedup _

lemma countP_or23 (l : List ℕ) :
    l.countP (fun s => s == 2 || s == 3) = l.count 2 + l.count 3 := by
  induction l with
  | nil => rfl
  | cons a t ih =>
    rw [List.countP_cons, List.count_cons, List.count_cons, ih]
    by_cases h2 : a = 2 <;> by_cases h3 : a = 3 <;> simp [h2, h3] <;> omega

lemma suppliersUsedCount_C6A : suppliersUsedCount enrichedC6 yC6A = 1 := by
  unfold suppliersUsedCount yC6A
  rw [← List.countP_eq_length_filter]
  show (supplierIds enrichedC6).count 1 = 1
  exact List.count_eq_one_of_mem supplierIds_C6_nodup
    ((supplierIds_C6_mem 1).mpr (Or.inl rfl))

lemma suppliersUsedCount_C6B : suppliersUsedCount enrichedC6 yC6B = 2 := by
  unfold suppliersUsedCount yC6B
  rw [← List.countP_eq_length_filter, countP_or23,
    List.count_eq_one_of_mem supplierIds_C6_nodup
      ((supplierIds_C6_mem 2).mpr (Or.inr (Or.inl rfl))),
    List.count_eq_one_of_mem supplierIds_C6_nodup
      ((supplierIds_C6_mem 3).mpr (Or.inr (Or.inr rfl)))]

lemma penaltySum_C6A : penaltySum enrichedC6 xC6A = 1000 := by
  unfold penaltySum allCandidates
  rw [solverItems_C6]
  exact buildFlat_C6_penaltyA 1000 0 0 0 rfl

lemma penaltySum_C6B : penaltySum enrichedC6 xC6B = 0 := by
  unfold penaltySum allCandidates
  rw [solverItems_C6]
  exact buildFlat_C6_penaltyB 1000 0 0 0 rfl

/-- C6 counterexample: on a 1000-line instance the container-penalty sum
can reach the hard-coded weight 1000, so an assignment using one supplier
(all `"alike"`, objective `1000·1 + 1000 = 2000`) does not get a strictly
smaller objective than one using two suppliers (all exact, objective
`1000·2 + 0 = 2000`) — the preference is not strictly lexicographic as the
claim states. -/
theorem C6_counterexample :
    feasible enrichedC6 xC6A yC6A ∧ feasible enrichedC6 xC6B yC6B ∧
      suppliersUsedCount enrichedC6 yC6A < suppliersUsedCount enrichedC6 yC6B ∧
      ¬ (objective cfgC6 enrichedC6 xC6A yC6A
          < objective cfgC6 enrichedC6 xC6B yC6B) := by
  have hobjA : objective cfgC6 enrichedC6 xC6A yC6A = 2000 := by
    show suppliersUsedCount enrichedC6 yC6A * 1000 + penaltySum enrichedC6 xC6A
      = 2000
    rw [suppliersUsedCount_C6A, penaltySum_C6A]
  have hobjB : objective cfgC6 enrichedC6 xC6B yC6B = 2000 := by
    show suppliersUsedCount enrichedC6 yC6B * 1000 + penaltySum enrichedC6 xC6B
      = 2000
    rw [suppliersUsedCount_C6B, penaltySum_C6B]
  refine ⟨⟨exactlyOne_C6A, linking_C6A, moa_no_suppliers _ rfl _ _⟩,
    ⟨exactlyOne_C6B, linking_C6B, moa_no_suppliers _ rfl _ _⟩, ?_, ?_⟩
  · rw [suppliersUsedCount_C6A, suppliersUsedCount_C6B]
    omega
  · rw [hobjA, hobjB]
    omega

/-- A two-line instance of the C6 family, small enough for the dominance
regime. -/
def enrichedC6small : EnrichedPayload :=
  { order_id := 2, items := (List.range' 0 2).map itemC6, suppliers := [] }

/-- Witness for C6 (amended): on the two-line instance, the one-supplier
assignment (objective `1000 + 2`) beats the two-supplier assignment
(objective `2000`). -/
theorem C6_container_match_lexicographic_witness :
    objective cfgC6 enrichedC6small xC6A yC6A
      < objective cfgC6 enrichedC6small xC6B yC6B :=
  C6_container_match_lexicographic cfgC6 enrichedC6small xC6A yC6A xC6B yC6B rfl
    (by decide) (by decide) (by decide) (by decide)

end C6Family

end OrderProc
